import Mathlib

/-!
Verification of the qdrant GPU HNSW graph builder orchestration
(`src/lib/segment/src/index/hnsw_index/gpu/gpu_graph_builder.rs`), of the
HNSW construction parameters (`src/lib/segment/src/index/hnsw_index/mod.rs`)
and of the fixed-size page read/write primitives
(`src/lib/gridstore/src/page.rs`), as shallow embeddings in Lean.

Bytes are modelled as natural numbers, a memory map as a `List Nat`.
Fallible operations (Rust panics, failed assertions, slice-range panics)
are modelled by `Option` / `Except`.
-/

namespace Page

/-- Embedding of `Page::write_value` from `src/lib/gridstore/src/page.rs`.
The mmap is a byte list.  Returns `none` exactly when the Rust code would
panic: the slice expression `self.mmap[value_start..value_end - unwritten_tail]`
requires `value_start ≤ value_end - unwritten_tail ≤ mmap.len()`, the source
slice `value[..value_size - unwritten_tail]` requires
`unwritten_tail ≤ value_size` (usize subtraction), and `copy_from_slice`
requires both slices to have equal length.  Otherwise returns the updated
mmap and the count of unwritten bytes (`saturating_sub` is `Nat` subtraction). -/
def write_value (mmap : List Nat) (block_offset : Nat) (value : List Nat)
    (block_size_bytes : Nat) : Option (List Nat × Nat) :=
  let value_size := value.length
  let value_start := block_offset * block_size_bytes
  let value_end := value_start + value_size
  let unwritten_tail := value_end - mmap.length
  let write_end := value_end - unwritten_tail
  if value_start ≤ write_end ∧ write_end ≤ mmap.length ∧
      unwritten_tail ≤ value_size ∧
      write_end - value_start = value_size - unwritten_tail then
    some (mmap.take value_start ++ value.take (value_size - unwritten_tail) ++
            mmap.drop write_end,
          unwritten_tail)
  else
    none

/-- Embedding of `Page::read_value_with_generic_storage` from
`src/lib/gridstore/src/page.rs`.  Returns `none` exactly when the Rust
`assert!(value_start < mmap_len)` fails; otherwise the returned slice
`mmap[value_start..value_end - unread_tail]` is modelled by drop/take and
the unread tail count is `saturating_sub`, i.e. `Nat` subtraction. -/
def read_value_with_generic_storage (mmap : List Nat) (block_offset : Nat)
    (length : Nat) (block_size_bytes : Nat) : Option (List Nat × Nat) :=
  let value_start := block_offset * block_size_bytes
  let mmap_len := mmap.length
  if value_start < mmap_len then
    let value_end := value_start + length
    let unread_tail := value_end - mmap_len
    some ((mmap.drop value_start).take (value_end - unread_tail - value_start),
          unread_tail)
  else
    none

/-- Embedding of `Page::read_value`.  Both the sequential and the random
mmap view contain the same bytes, so the `READ_SEQUENTIAL` flag does not
affect the returned data; both branches delegate to
`read_value_with_generic_storage` on the page's byte content. -/
def read_value (mmap : List Nat) (block_offset : Nat) (length : Nat)
    (block_size_bytes : Nat) : Option (List Nat × Nat) :=
  read_value_with_generic_storage mmap block_offset length block_size_bytes

end Page

/-- Embedding of `HnswM` from `src/lib/segment/src/index/hnsw_index/mod.rs`:
maximum number of links per level, `m` for all levels except level 0 and
`m0` for level 0. -/
structure HnswM where
  m : Nat
  m0 : Nat
deriving DecidableEq, Repr

/-- Embedding of `HnswM::new`: explicitly set both `m` and `m0`. -/
def HnswM.new (m m0 : Nat) : HnswM :=
  { m := m, m0 := m0 }

/-- Embedding of `HnswM::new2`: initialize with `m0 = 2 * m`. -/
def HnswM.new2 (m : Nat) : HnswM :=
  { m := m, m0 := 2 * m }

/-- Embedding of `HnswM::level_m`: `if level == 0 { self.m0 } else { self.m }`. -/
def HnswM.level_m (hm : HnswM) (level : Nat) : Nat :=
  if level = 0 then hm.m0 else hm.m

/-- Modelled from the spec: the mutable graph under construction
(`GraphLayersBuilder`, whose source is not under `src/`).  One adjacency
list per point and per level (`links_layers`, indexed by point id, then by
level), the construction parameters it was created with, a ready marker per
point and the designated entry-point set. -/
structure GraphLayersBuilder where
  hnsw_m : HnswM
  ef_construct : Nat
  links_layers : List (List (List Nat))
  ready : List Bool
  entry_points : List Nat
deriving DecidableEq, Repr

/-- Modelled from the spec: `GraphLayersBuilder::get_point_level` — a point's
maximum level is one less than the number of its per-level adjacency lists. -/
def GraphLayersBuilder.get_point_level (g : GraphLayersBuilder) (id : Nat) : Nat :=
  (g.links_layers.getD id []).length - 1

/-- The adjacency list of point `id` at `level` (empty when out of range). -/
def getLinks (ll : List (List (List Nat))) (id level : Nat) : List Nat :=
  (ll.getD id []).getD level []

/-- Replace the adjacency list of point `id` at `level` (no-op out of range,
like `List.set`). -/
def setLinks (ll : List (List (List Nat))) (id level : Nat) (v : List Nat) :
    List (List (List Nat)) :=
  ll.set id ((ll.getD id []).set level v)

/-- Modelled from the spec: neighbor selection with the diversity-aware
pruning rule, which the spec leaves open ("the exact diversity/pruning rule
... is not pinned down"); what it does pin down is that at most `cap =
level_m(level)` neighbors are kept and a point never links to itself.  The
model keeps the first `cap` distinct candidates different from the point
itself. -/
def select_neighbors (cap point : Nat) (candidates : List Nat) : List Nat :=
  ((candidates.filter (fun c => c ≠ point)).dedup).take cap

/-- Modelled from the spec: the greedy candidate search of
`link_new_point` — "maintain a candidate frontier of size `ef` using the
supplied scorer".  The model considers the entry points and the points
adjacent at this level and keeps the `ef` best by scorer. -/
def search_layer (ef level : Nat) (ll : List (List (List Nat)))
    (entry : List Nat) (scorer : Nat → Nat) : List Nat :=
  (List.insertionSort (fun a b => scorer a ≤ scorer b)
    (entry ++ (ll.map (fun pls => pls.getD level [])).flatten)).take ef

/-- Modelled from the spec: inserting the reverse edge of a bidirectional
link.  If the neighbor is at capacity the spec either evicts its weakest
edge or drops the new edge; the model drops the new edge (either choice
keeps the list within `cap`). -/
def add_link_capped (cap : Nat) (links : List Nat) (new_id : Nat) : List Nat :=
  if links.length < cap then links ++ [new_id] else links

/-- Modelled from the spec: one level of `link_new_point` — select up to
`level_m(level)` neighbors from the candidate frontier, set them as the
point's adjacency at this level and insert the reverse edges. -/
def link_point_at_level (g : GraphLayersBuilder) (id level : Nat)
    (scorer : Nat → Nat) : GraphLayersBuilder :=
  let cap := g.hnsw_m.level_m level
  let selected := select_neighbors cap id
    (search_layer g.ef_construct level g.links_layers g.entry_points scorer)
  let ll1 := setLinks g.links_layers id level selected
  let ll2 := selected.foldl
    (fun ll nb => setLinks ll nb level (add_link_capped cap (getLinks ll nb level) id)) ll1
  { g with links_layers := ll2 }

/-- Modelled from the spec: `GraphLayersBuilder::link_new_point` — CPU,
single point, sequential; greedy top-down insertion linking the point at
every level from its assigned level down to 0, then keeping the entry-point
set non-empty. -/
def link_new_point (g : GraphLayersBuilder) (id : Nat) (scorer : Nat → Nat) :
    GraphLayersBuilder :=
  let point_level := g.get_point_level id
  let g1 := ((List.range (point_level + 1)).reverse).foldl
    (fun acc level => link_point_at_level acc id level scorer) g
  { g1 with entry_points := if g1.entry_points.isEmpty then [id] else g1.entry_points }

/-- Modelled from the spec: `GraphLayersBuilder::fill_ready_list` — marks
every point as search-eligible. -/
def fill_ready_list (g : GraphLayersBuilder) : GraphLayersBuilder :=
  { g with ready := g.ready.map (fun _ => true) }

/-- Modelled from the spec: a bounded group of point IDs assigned to one
parallel work unit, tagged with the level its points are assigned. -/
structure Batch where
  level : Nat
  points : List Nat
deriving DecidableEq, Repr

/-- Accumulator loop of `chunk_points`: collect points into the open chunk
`acc` and close it when it reaches `n` points. -/
def chunk_points_go (n : Nat) : List Nat → List Nat → List (List Nat)
  | [], acc => if acc.isEmpty then [] else [acc]
  | x :: xs, acc =>
    if n ≤ acc.length + 1 then (acc ++ [x]) :: chunk_points_go n xs []
    else chunk_points_go n xs (acc ++ [x])

/-- Split a point list into chunks of at most `n` points each (every chunk
non-empty; a final partial chunk is kept). -/
def chunk_points (n : Nat) (l : List Nat) : List (List Nat) :=
  chunk_points_go n l []

/-- Modelled from the spec: `BatchedPoints` — total level count and the
per-level ordered collection of batches, highest level first. -/
structure BatchedPoints where
  batches : List Batch
  levels_count : Nat
deriving DecidableEq, Repr

/-- Modelled from the spec: `BatchedPoints::new` — computes the total level
count from the maximum level observed and produces, per level from the
highest downward, the batches of the points assigned that level, balanced
across `groups_count` work units. -/
def BatchedPoints.new (level_fn : Nat → Nat) (ids : List Nat)
    (groups_count : Nat) : BatchedPoints :=
  let levels_count := (ids.map level_fn).foldr max 0 + 1
  let batches := ((List.range levels_count).reverse).flatMap (fun l =>
    (chunk_points groups_count (ids.filter (fun id => level_fn id = l))).map
      (fun ps => { level := l, points := ps }))
  { batches := batches, levels_count := levels_count }

/-- Modelled from the spec: the restartable batch sequence given a number of
already-processed points — skip that many points from the front, dropping
batches that become empty. -/
def iter_batches_from : List Batch → Nat → List Batch
  | [], _ => []
  | b :: bs, k =>
    if b.points.length ≤ k then iter_batches_from bs (k - b.points.length)
    else { level := b.level, points := b.points.drop k } :: bs

/-- Modelled from the spec: `BatchedPoints::iter_batches`. -/
def BatchedPoints.iter_batches (bp : BatchedPoints) (skip : Nat) : List Batch :=
  iter_batches_from bp.batches skip

/-- Modelled from the spec: `create_graph_layers_builder` (in the gpu module,
not under `src/`) — allocate an empty builder sized for the target point
count, storing the construction parameters `hnsw_m` and `ef` it is given;
`entry_points_num` sizes the entry-point set, which starts empty. -/
def create_graph_layers_builder (level_fn : Nat → Nat) (num_vectors : Nat)
    (hm : HnswM) (ef : Nat) (entry_points_num : Nat) : GraphLayersBuilder :=
  { hnsw_m := hm
    ef_construct := ef
    links_layers := (List.range num_vectors).map
      (fun id => List.replicate (level_fn id + 1) [])
    ready := List.replicate num_vectors false
    entry_points := [] }

/-- Observable steps of one `build_hnsw_on_gpu` run: a poll of the stop
flag, a CPU `link_new_point` call, `fill_ready_list`, `GpuInsertContext`
`init`, and the per-level `upload_links` / level build / `download_links`
calls. -/
inductive BuildEvent where
  | pollStop
  | linkPoint (id : Nat)
  | fillReady
  | gpuInit
  | upload (level : Nat)
  | buildLevel (level : Nat)
  | download (level : Nat)
deriving DecidableEq, Repr

/-- Errors of one `build_hnsw_on_gpu` run: cooperative cancellation, a
scorer-builder failure for a point, or a failure (error or observed
cancellation) of a GPU call, tagged with the failing call. -/
inductive BuildError where
  | interrupted
  | scorerFailed (id : Nat)
  | gpuError (op : BuildEvent)
deriving DecidableEq, Repr

/-- Inner loop of the CPU warm-start phase of `build_hnsw_on_gpu`
(`for point in batch.points { ... }`): poll the stop flag, build the scorer,
link the point, and break once `cpu_linked_points` points are linked.
`count` is `cpu_linked_points_count`, `polls` numbers the stop-flag polls so
the `stopped` oracle can flip at a chosen poll.  Returns the emitted events
and either an error or the updated builder, count and poll index. -/
def cpu_link_batch (cpu_linked_points : Nat) (stopped : Nat → Bool)
    (scorer_builder : Nat → Option (Nat → Nat)) :
    List Nat → GraphLayersBuilder → Nat → Nat →
      List BuildEvent × Except BuildError (GraphLayersBuilder × Nat × Nat)
  | [], g, count, polls => ([], .ok (g, count, polls))
  | p :: ps, g, count, polls =>
    if stopped polls then
      ([.pollStop], .error .interrupted)
    else
      match scorer_builder p with
      | none => ([.pollStop], .error (.scorerFailed p))
      | some scorer =>
        let g1 := link_new_point g p scorer
        let count1 := count + 1
        if cpu_linked_points ≤ count1 then
          ([.pollStop, .linkPoint p], .ok (g1, count1, polls + 1))
        else
          let rest := cpu_link_batch cpu_linked_points stopped scorer_builder
            ps g1 count1 (polls + 1)
          (.pollStop :: .linkPoint p :: rest.1, rest.2)

/-- Outer loop of the CPU warm-start phase of `build_hnsw_on_gpu`
(`for batch in batched_points.iter_batches(0) { ... }`): run the inner loop
on each batch and break once `cpu_linked_points` points are linked. -/
def cpu_link_batches (cpu_linked_points : Nat) (stopped : Nat → Bool)
    (scorer_builder : Nat → Option (Nat → Nat)) :
    List (List Nat) → GraphLayersBuilder → Nat → Nat →
      List BuildEvent × Except BuildError (GraphLayersBuilder × Nat × Nat)
  | [], g, count, polls => ([], .ok (g, count, polls))
  | b :: bs, g, count, polls =>
    match cpu_link_batch cpu_linked_points stopped scorer_builder b g count polls with
    | (evs, .error e) => (evs, .error e)
    | (evs, .ok (g1, count1, polls1)) =>
      if cpu_linked_points ≤ count1 then
        (evs, .ok (g1, count1, polls1))
      else
        let rest := cpu_link_batches cpu_linked_points stopped scorer_builder
          bs g1 count1 polls1
        (evs ++ rest.1, rest.2)

/-- Modelled from the spec: the candidate set of the accelerated per-point
search — "greedy search using only edges already established at this level
or above (a frozen snapshot uploaded at the start of the level), producing
an `ef`-sized candidate set".  The model reads only the snapshot: entry
points plus the targets of snapshot edges at this level or above, capped at
`ef`. -/
def gpu_search_candidates (ef level : Nat) (snapshot : List (List (List Nat)))
    (entry : List Nat) : List Nat :=
  (entry ++ (snapshot.map (fun pls => (pls.drop level).flatten)).flatten).take ef

/-- Modelled from the spec: the links the accelerated level build computes
for one point — the frozen-snapshot search followed by "the same
diversity-pruning neighbor-selection rule as the CPU path, capped at
`level_m(level)`". -/
def gpu_compute_links (hm : HnswM) (ef level : Nat)
    (snapshot : List (List (List Nat))) (entry : List Nat) (p : Nat) : List Nat :=
  select_neighbors (hm.level_m level) p (gpu_search_candidates ef level snapshot entry)

/-- Modelled from the spec: apply one batch's computed links at `level`.
Every value is a function of the frozen `snapshot`, never of the
accumulator: "none observes another batch's in-progress writes". -/
def gpu_apply_batch (hm : HnswM) (ef level : Nat)
    (snapshot : List (List (List Nat))) (entry : List Nat) (b : Batch)
    (ll : List (List (List Nat))) : List (List (List Nat)) :=
  b.points.foldl
    (fun acc p => setLinks acc p level (gpu_compute_links hm ef level snapshot entry p)) ll

/-- Modelled from the spec: `build_level_on_gpu` — for one level, compute
new edges for every non-seeded point in every batch of that level against a
frozen snapshot of the builder taken at upload time.  `schedule` is the
dispatch order of the level's batches (indices into the list of remaining
batches participating at this level); an out-of-range index is a no-op. -/
def build_level_on_gpu (hm : HnswM) (ef : Nat) (bp : BatchedPoints)
    (skip level : Nat) (schedule : List Nat) (g : GraphLayersBuilder) :
    GraphLayersBuilder :=
  let level_batches := (bp.iter_batches skip).filter (fun b => level ≤ b.level)
  let snapshot := g.links_layers
  let entry := g.entry_points
  let new_ll := schedule.foldl
    (fun acc bi =>
      gpu_apply_batch hm ef level snapshot entry
        (level_batches.getD bi { level := level, points := [] }) acc)
    g.links_layers
  { g with links_layers := new_ll }

/-- The per-level loop of `build_hnsw_on_gpu`
(`for level in (0..batched_points.levels_count()).rev()`): for each level,
`upload_links`, the level build, `download_links`, propagating the first
failure immediately.  `gpu_fails` says whether a GPU call fails (through an
error or observed cancellation); the trace records the completed calls. -/
def gpu_build_levels (hm : HnswM) (ef : Nat) (bp : BatchedPoints) (skip : Nat)
    (gpu_fails : BuildEvent → Bool) (schedule : Nat → List Nat) :
    List Nat → GraphLayersBuilder →
      List BuildEvent × Except BuildError GraphLayersBuilder
  | [], g => ([], .ok g)
  | level :: rest, g =>
    if gpu_fails (.upload level) then
      ([], .error (.gpuError (.upload level)))
    else if gpu_fails (.buildLevel level) then
      ([.upload level], .error (.gpuError (.buildLevel level)))
    else
      let g1 := build_level_on_gpu hm ef bp skip level (schedule level) g
      if gpu_fails (.download level) then
        ([.upload level, .buildLevel level], .error (.gpuError (.download level)))
      else
        let r := gpu_build_levels hm ef bp skip gpu_fails schedule rest g1
        (.upload level :: .buildLevel level :: .download level :: r.1, r.2)

/-- Embedding of `build_hnsw_on_gpu` from
`src/lib/segment/src/index/hnsw_index/gpu/gpu_graph_builder.rs`: derive the
parameters and the effective `ef`, partition the ids into batches, create
the builder, link the first `cpu_linked_points` points on CPU, mark all
points ready, return early when no batches remain, otherwise `init` the
insert context and build all levels from the highest downward.  Failure
oracles stand for the environment: `stopped` is the stop flag per poll,
`scorer_builder` may fail per point, `gpu_init_fails` fails `init`, and
`gpu_fails` fails individual GPU calls; `schedule` fixes the per-level batch
dispatch order of the accelerated phase.  Returns the event trace and the
result. -/
def build_hnsw_on_gpu (reference_graph : GraphLayersBuilder)
    (groups_count entry_points_num cpu_linked_points : Nat) (ids : List Nat)
    (scorer_builder : Nat → Option (Nat → Nat)) (stopped : Nat → Bool)
    (gpu_init_fails : Bool) (gpu_fails : BuildEvent → Bool)
    (schedule : Nat → List Nat) :
    List BuildEvent × Except BuildError GraphLayersBuilder :=
  let num_vectors := reference_graph.links_layers.length
  let hnsw_m := reference_graph.hnsw_m
  let ef := max reference_graph.ef_construct hnsw_m.m0
  let batched_points :=
    BatchedPoints.new (fun id => reference_graph.get_point_level id) ids groups_count
  let g0 := create_graph_layers_builder
    (fun id => reference_graph.get_point_level id) num_vectors hnsw_m ef entry_points_num
  match cpu_link_batches cpu_linked_points stopped scorer_builder
      ((batched_points.iter_batches 0).map (fun b => b.points)) g0 0 0 with
  | (evs, .error e) => (evs, .error e)
  | (evs, .ok (g1, count, _)) =>
    let g2 := fill_ready_list g1
    if (batched_points.iter_batches count).isEmpty then
      (evs ++ [.fillReady], .ok g2)
    else if gpu_init_fails then
      (evs ++ [.fillReady], .error (.gpuError .gpuInit))
    else
      let r := gpu_build_levels hnsw_m ef batched_points cpu_linked_points
        gpu_fails schedule ((List.range batched_points.levels_count).reverse) g2
      (evs ++ .fillReady :: .gpuInit :: r.1, r.2)

/-- The event trace the CPU warm-start phase emits when it links exactly
the points `ps`: a stop-flag poll before each linked point. -/
def seed_trace (ps : List Nat) : List BuildEvent :=
  ps.flatMap (fun p => [.pollStop, .linkPoint p])

/-- The batch-0 point order of one `build_hnsw_on_gpu` call: the points of
`iter_batches(0)` flattened, highest level first, insertion order within a
level.  This is the order in which the CPU warm-start phase links points. -/
def seeding_order (reference_graph : GraphLayersBuilder) (ids : List Nat)
    (groups_count : Nat) : List Nat :=
  (((BatchedPoints.new (fun id => reference_graph.get_point_level id) ids
      groups_count).iter_batches 0).map (fun b => b.points)).flatten

/-- The points linked (in order) according to an event trace. -/
def linked_points (tr : List BuildEvent) : List Nat :=
  tr.filterMap (fun e =>
    match e with
    | .linkPoint p => some p
    | _ => none)

/-- Whether an event is one of the three per-level GPU calls. -/
def isLevelOp : BuildEvent → Bool
  | .upload _ => true
  | .buildLevel _ => true
  | .download _ => true
  | _ => false

/-- Whether an event is a GPU call at all (`init` included). -/
def isGpuOp : BuildEvent → Bool
  | .gpuInit => true
  | e => isLevelOp e

/-- The per-level GPU call sequence for a list of levels, in list order. -/
def ops_for (ls : List Nat) : List BuildEvent :=
  ls.flatMap (fun l => [.upload l, .buildLevel l, .download l])

/-- Neighbor-list bounds and self-loop freedom, the graph invariant of the
spec: every point's adjacency list at `level` has at most `level_m(level)`
entries and never contains the point itself. -/
def links_invariant (hm : HnswM) (ll : List (List (List Nat))) : Prop :=
  ∀ i level, (getLinks ll i level).length ≤ hm.level_m level ∧
    i ∉ getLinks ll i level

/-- The per-level GPU calls of a trace, in order. -/
def gpu_level_ops (tr : List BuildEvent) : List BuildEvent :=
  tr.filter isLevelOp

/-- The top-down ordering property of the accelerated phase: whenever the
trace performs the level build for `L`, the full `upload → build → download`
cycle of every higher level `L' < n` already appears before it. -/
def level_build_after_higher (n : Nat) (tr : List BuildEvent) : Prop :=
  ∀ (tr1 : List BuildEvent) (L : Nat) (tr2 : List BuildEvent),
    tr = tr1 ++ .buildLevel L :: tr2 →
    ∀ L', L < L' → L' < n →
      .upload L' ∈ tr1 ∧ .buildLevel L' ∈ tr1 ∧ .download L' ∈ tr1

/-- The immediate-propagation property: a `gpuError op` result for a
per-level call means that call's failure oracle fired, every per-level call
in the trace succeeded, and the failing call is exactly the next one in the
descending `upload/build/download` sequence after the performed ones. -/
def first_gpu_failure_reported (gpu_fails : BuildEvent → Bool) (n : Nat)
    (tr : List BuildEvent) (res : Except BuildError GraphLayersBuilder) : Prop :=
  ∀ op, res = .error (.gpuError op) → isLevelOp op = true →
    gpu_fails op = true ∧
    (∀ e ∈ gpu_level_ops tr, gpu_fails e = false) ∧
    (ops_for ((List.range n).reverse))[(gpu_level_ops tr).length]? = some op

/-- Decidable equality for `Except`, so concrete runs of the embedding can
be checked by `decide`. -/
instance {ε α : Type} [DecidableEq ε] [DecidableEq α] :
    DecidableEq (Except ε α) := fun x y =>
  match x, y with
  | .ok a, .ok b =>
    if h : a = b then isTrue (by rw [h]) else
      isFalse (fun hc => h (Except.ok.inj hc))
  | .error a, .error b =>
    if h : a = b then isTrue (by rw [h]) else
      isFalse (fun hc => h (Except.error.inj hc))
  | .ok _, .error _ => isFalse (fun hc => Except.noConfusion hc)
  | .error _, .ok _ => isFalse (fun hc => Except.noConfusion hc)

/-- A small concrete reference graph used to instantiate the theorems about
`build_hnsw_on_gpu`: three points, point 0 assigned level 1, points 1 and 2
assigned level 0, `m = 2`, `m0 = 4`, `ef_construct = 3`. -/
def exampleRef : GraphLayersBuilder :=
  { hnsw_m := HnswM.new2 2
    ef_construct := 3
    links_layers := [[[], []], [[]], [[]]]
    ready := [false, false, false]
    entry_points := [] }

/-- The builder produced by the concrete `exampleRef` run of
`build_hnsw_on_gpu` used by the witnesses below. -/
def exampleBuildResult : GraphLayersBuilder :=
  { hnsw_m := { m := 2, m0 := 4 }
    ef_construct := 4
    links_layers := [[[], []], [[0]], [[0]]]
    ready := [true, true, true]
    entry_points := [0] }

/-- The event trace of the concrete `exampleRef` run of
`build_hnsw_on_gpu` used by the witnesses below. -/
def exampleBuildTrace : List BuildEvent :=
  [.pollStop, .linkPoint 0, .fillReady, .gpuInit,
   .upload 1, .buildLevel 1, .download 1,
   .upload 0, .buildLevel 0, .download 0]

/-! ## Theorems about the page primitives -/

namespace Page

/-- When the whole value fits (`value_start + |value| ≤ |mmap|`),
`write_value` returns the page with the value spliced in at `value_start`
and an unwritten count of `0`. -/
theorem write_value_fits (mmap value : List Nat) (bo bsb : Nat)
    (hfit : bo * bsb + value.length ≤ mmap.length) :
    write_value mmap bo value bsb =
      some (mmap.take (bo * bsb) ++ value ++ mmap.drop (bo * bsb + value.length), 0) := by
  simp only [write_value]
  rw [if_pos (by omega)]
  have h0 : bo * bsb + value.length - mmap.length = 0 := by omega
  rw [h0]
  simp

/-- C2 counterexample: the claim quantifies over every byte string with
`block_offset * block_size_bytes + len(bytes) ≤ page length`.  With an empty
byte string whose start sits exactly at the page end that hypothesis holds
(`1 * 1 + 0 ≤ 1`) and the write returns normally, but the subsequent read
fails the `assert!(value_start < mmap_len)` assertion instead of returning
the bytes with an unread count of 0. -/
theorem round_trip_cex :
    Page.write_value [7] 1 [] 1 = some ([7], 0) ∧
      Page.read_value [7] 1 0 1 = none := by
  constructor
  · rfl
  · rfl

/-- C2 (amended): for every page, block offset, block size and byte string
such that the write fits entirely in the page and the value's start lies
strictly inside the page (automatic whenever `bytes` is non-empty),
`write_value` returns unwritten count 0 and `read_value` of the written
length returns exactly the bytes with an unread count of 0. -/
theorem round_trip (mmap value : List Nat) (bo bsb : Nat)
    (hfit : bo * bsb + value.length ≤ mmap.length)
    (hstart : bo * bsb < mmap.length) :
    ∃ m', write_value mmap bo value bsb = some (m', 0) ∧
      read_value m' bo value.length bsb = some (value, 0) := by
  refine ⟨_, write_value_fits mmap value bo bsb hfit, ?_⟩
  have hts : (mmap.take (bo * bsb)).length = bo * bsb := by
    simp
    omega
  have hlen : (mmap.take (bo * bsb) ++ value ++ mmap.drop (bo * bsb + value.length)).length
      = mmap.length := by
    simp
    omega
  simp only [read_value, read_value_with_generic_storage]
  rw [if_pos (by omega)]
  have h0 : bo * bsb + value.length - (mmap.take (bo * bsb) ++ value ++
      mmap.drop (bo * bsb + value.length)).length = 0 := by omega
  rw [h0]
  have hdrop : (mmap.take (bo * bsb) ++ value ++ mmap.drop (bo * bsb + value.length)).drop
      (bo * bsb) = value ++ mmap.drop (bo * bsb + value.length) := by
    have h := List.drop_left (mmap.take (bo * bsb))
      (value ++ mmap.drop (bo * bsb + value.length))
    rw [hts] at h
    rw [List.append_assoc]
    exact h
  rw [hdrop]
  have htake : (value ++ mmap.drop (bo * bsb + value.length)).take
      (bo * bsb + value.length - 0 - bo * bsb) = value := by
    have h : bo * bsb + value.length - 0 - bo * bsb = value.length := by omega
    rw [h, List.take_left]
  rw [htake]

/-- Witness for `Page.round_trip` at a concrete input. -/
theorem round_trip_witness :
    (1 * 1 + 2 ≤ 4 ∧ 1 * 1 < 4) ∧
      (∃ m', Page.write_value [1, 2, 3, 4] 1 [9, 8] 1 = some (m', 0) ∧
        Page.read_value m' 1 2 1 = some ([9, 8], 0)) :=
  ⟨by decide, round_trip [1, 2, 3, 4] [9, 8] 1 1 (by decide) (by decide)⟩

/-- C3 counterexample: the claim says writes and reads "always return
normally with the in-page prefix written/read", but a write whose start lies
past the page end panics in Rust (`value[..value_size - unwritten_tail]`
underflows / the mmap slice range is invalid), and the corresponding read
fails its assertion: at page `[0]`, `block_offset = 2`, `block_size = 1`
both return no value at all. -/
theorem truncation_cex :
    Page.write_value [0] 2 [5] 1 = none ∧
      Page.read_value [0] 2 5 1 = none := by
  constructor
  · rfl
  · rfl

/-- C3 (amended): when the value's start lies strictly inside the page,
writes and reads that exceed the page silently truncate rather than
erroring: they return normally with the in-page prefix written/read, and
the returned truncation count is `value_end − page_len` when
`value_end > page_len`, else `0` — which is exactly `Nat` (saturating)
subtraction `value_end - page_len`. -/
theorem truncation_consistent (mmap value : List Nat) (bo bsb len : Nat)
    (hr : bo * bsb < mmap.length) :
    write_value mmap bo value bsb =
      some (mmap.take (bo * bsb) ++
              value.take (min value.length (mmap.length - bo * bsb)) ++
              mmap.drop (min (bo * bsb + value.length) mmap.length),
            bo * bsb + value.length - mmap.length) ∧
    read_value mmap bo len bsb =
      some ((mmap.drop (bo * bsb)).take (min len (mmap.length - bo * bsb)),
            bo * bsb + len - mmap.length) := by
  constructor
  · simp only [write_value]
    rw [if_pos (by omega)]
    have e1 : value.length - (bo * bsb + value.length - mmap.length)
        = min value.length (mmap.length - bo * bsb) := by omega
    have e2 : bo * bsb + value.length - (bo * bsb + value.length - mmap.length)
        = min (bo * bsb + value.length) mmap.length := by omega
    rw [e1, e2]
  · simp only [read_value, read_value_with_generic_storage]
    rw [if_pos (by omega)]
    have e3 : bo * bsb + len - (bo * bsb + len - mmap.length) - bo * bsb
        = min len (mmap.length - bo * bsb) := by omega
    rw [e3]

/-- Witness for `Page.truncation_consistent` at a concrete input where both
the write and the read overrun the page (`value_end = 7 > 4`). -/
theorem truncation_consistent_witness :
    1 * 2 < 4 ∧
      (Page.write_value [0, 0, 0, 0] 1 [9, 8, 7, 6, 5] 2 = some ([0, 0, 9, 8], 3) ∧
        Page.read_value [0, 0, 0, 0] 1 5 2 = some ([0, 0], 3)) := by
  refine ⟨by decide, ?_⟩
  have h := truncation_consistent [0, 0, 0, 0] [9, 8, 7, 6, 5] 1 2 5 (by decide)
  revert h
  decide

/-- C9 counterexample: the claim says that whenever
`block_offset * block_size_bytes` is *at or past* the page end, `write_value`
panics.  At exactly the page end it does not: the mmap slice is the valid
empty slice `mmap[len..len]`, the source slice is `value[..0]`, and the call
returns normally with the whole value unwritten. -/
theorem partiality_cex :
    Page.write_value [7] 1 [5] 1 = some ([7], 1) := by
  rfl

/-- C9 (amended): `read_value` fails its assertion exactly when the value's
start is at or past the page end, while `write_value` panics exactly when
the start is strictly past the page end (at exactly the end it returns
normally with everything unwritten); so the silent-truncation contract for
reads requires `value_start < page_len` and for writes
`value_start ≤ page_len`. -/
theorem partiality (mmap value : List Nat) (bo bsb len : Nat) :
    (read_value mmap bo len bsb).isSome = decide (bo * bsb < mmap.length) ∧
    (write_value mmap bo value bsb).isSome = decide (bo * bsb ≤ mmap.length) := by
  constructor
  · simp only [read_value, read_value_with_generic_storage]
    split
    · next h => simp [h]
    · next h => simp [h]
  · simp only [write_value]
    split
    · next h =>
      simp
      omega
    · next h =>
      simp
      omega

end Page

/-! ## Helper lemmas about list updates and the links invariant -/

theorem getD_set_eq_ite {α : Type} (l : List α) (i j : Nat) (a d : α) :
    (l.set i a).getD j d = if i = j ∧ i < l.length then a else l.getD j d := by
  rw [List.getD_eq_getElem?_getD, List.getD_eq_getElem?_getD, List.getElem?_set]
  by_cases h1 : i = j
  · subst h1
    by_cases h2 : i < l.length
    · simp [h2]
    · have hn : l[i]? = none := List.getElem?_eq_none (by omega)
      simp [h2, hn]
  · simp [h1]

theorem getLinks_setLinks (ll : List (List (List Nat))) (p level : Nat)
    (v : List Nat) (i l : Nat) :
    getLinks (setLinks ll p level v) i l =
      if p = i ∧ p < ll.length ∧ level = l ∧ level < (ll.getD p []).length then v
      else getLinks ll i l := by
  unfold getLinks setLinks
  rw [getD_set_eq_ite]
  by_cases h1 : p = i ∧ p < ll.length
  · obtain ⟨h1a, h1b⟩ := h1
    rw [if_pos ⟨h1a, h1b⟩]
    subst h1a
    rw [getD_set_eq_ite]
    by_cases h2 : level = l ∧ level < (ll.getD p []).length
    · rw [if_pos h2, if_pos ⟨rfl, h1b, h2.1, h2.2⟩]
    · rw [if_neg h2, if_neg (by tauto)]
  · rw [if_neg h1, if_neg (by tauto)]

theorem links_invariant_setLinks {hm : HnswM} {ll : List (List (List Nat))}
    (hinv : links_invariant hm ll) {p level : Nat} {v : List Nat}
    (hlen : v.length ≤ hm.level_m level) (hself : p ∉ v) :
    links_invariant hm (setLinks ll p level v) := by
  intro i l
  rw [getLinks_setLinks]
  split
  · next h =>
    obtain ⟨hpi, -, hll, -⟩ := h
    subst hpi
    subst hll
    exact ⟨hlen, hself⟩
  · exact hinv i l

theorem select_neighbors_length (cap point : Nat) (c : List Nat) :
    (select_neighbors cap point c).length ≤ cap := by
  simpa [select_neighbors] using List.length_take_le _ _

theorem select_neighbors_ne (cap point : Nat) (c : List Nat) :
    ∀ x ∈ select_neighbors cap point c, x ≠ point := by
  intro x hx
  unfold select_neighbors at hx
  have hx2 := List.mem_of_mem_take hx
  rw [List.mem_dedup] at hx2
  have hx3 := List.of_mem_filter hx2
  simpa using hx3

theorem select_neighbors_not_self (cap point : Nat) (c : List Nat) :
    point ∉ select_neighbors cap point c := by
  intro h
  exact select_neighbors_ne cap point c point h rfl

theorem add_link_capped_length {cap : Nat} {links : List Nat}
    (h : links.length ≤ cap) (x : Nat) :
    (add_link_capped cap links x).length ≤ cap := by
  unfold add_link_capped
  split
  · next h2 =>
    simp
    omega
  · exact h

theorem add_link_capped_not_mem {cap : Nat} {links : List Nat} {x nb : Nat}
    (h1 : nb ∉ links) (h2 : nb ≠ x) :
    nb ∉ add_link_capped cap links x := by
  unfold add_link_capped
  split
  · simp [h1, h2]
  · exact h1

theorem links_invariant_backlink_fold {hm : HnswM} (id level : Nat) :
    ∀ (sel : List Nat) (ll : List (List (List Nat))),
      links_invariant hm ll → (∀ nb ∈ sel, nb ≠ id) →
      links_invariant hm (sel.foldl
        (fun ll nb => setLinks ll nb level
          (add_link_capped (hm.level_m level) (getLinks ll nb level) id)) ll) := by
  intro sel
  induction sel with
  | nil =>
    intro ll h _
    exact h
  | cons nb rest ih =>
    intro ll h hne
    simp only [List.foldl_cons]
    apply ih
    · apply links_invariant_setLinks h
      · exact add_link_capped_length (h nb level).1 id
      · exact add_link_capped_not_mem (h nb level).2 (hne nb (by simp))
    · intro nb' hnb'
      exact hne nb' (List.mem_cons_of_mem _ hnb')

theorem links_invariant_link_point_at_level {g : GraphLayersBuilder}
    (h : links_invariant g.hnsw_m g.links_layers) (id level : Nat)
    (scorer : Nat → Nat) :
    links_invariant g.hnsw_m (link_point_at_level g id level scorer).links_layers := by
  unfold link_point_at_level
  apply links_invariant_backlink_fold
  · exact links_invariant_setLinks h (select_neighbors_length _ _ _)
      (select_neighbors_not_self _ _ _)
  · exact select_neighbors_ne _ _ _

theorem link_point_at_level_hnsw_m (g : GraphLayersBuilder) (id level : Nat)
    (scorer : Nat → Nat) :
    (link_point_at_level g id level scorer).hnsw_m = g.hnsw_m := by
  rfl

theorem link_point_at_level_ef (g : GraphLayersBuilder) (id level : Nat)
    (scorer : Nat → Nat) :
    (link_point_at_level g id level scorer).ef_construct = g.ef_construct := by
  rfl

theorem links_invariant_level_fold (id : Nat) (scorer : Nat → Nat) :
    ∀ (ls : List Nat) (g : GraphLayersBuilder),
      links_invariant g.hnsw_m g.links_layers →
      (ls.foldl (fun acc level => link_point_at_level acc id level scorer) g).hnsw_m
          = g.hnsw_m ∧
      (ls.foldl (fun acc level => link_point_at_level acc id level scorer) g).ef_construct
          = g.ef_construct ∧
      links_invariant g.hnsw_m
        (ls.foldl (fun acc level => link_point_at_level acc id level scorer) g).links_layers := by
  intro ls
  induction ls with
  | nil =>
    intro g h
    exact ⟨rfl, rfl, h⟩
  | cons level rest ih =>
    intro g h
    simp only [List.foldl_cons]
    have h1 := links_invariant_link_point_at_level h id level scorer
    rw [← link_point_at_level_hnsw_m g id level scorer] at h1
    have h2 := ih (link_point_at_level g id level scorer) h1
    rw [link_point_at_level_hnsw_m] at h2
    exact ⟨h2.1, by rw [h2.2.1, link_point_at_level_ef], h2.2.2⟩

theorem links_invariant_link_new_point {g : GraphLayersBuilder}
    (h : links_invariant g.hnsw_m g.links_layers) (id : Nat) (scorer : Nat → Nat) :
    (link_new_point g id scorer).hnsw_m = g.hnsw_m ∧
    (link_new_point g id scorer).ef_construct = g.ef_construct ∧
    links_invariant g.hnsw_m (link_new_point g id scorer).links_layers := by
  unfold link_new_point
  have h1 := links_invariant_level_fold id scorer
    ((List.range (g.get_point_level id + 1)).reverse) g h
  exact ⟨h1.1, h1.2.1, h1.2.2⟩

theorem links_invariant_create (level_fn : Nat → Nat) (num : Nat) (hm : HnswM)
    (ef epn : Nat) :
    links_invariant hm (create_graph_layers_builder level_fn num hm ef epn).links_layers := by
  intro i l
  suffices h : getLinks (create_graph_layers_builder level_fn num hm ef epn).links_layers i l
      = [] by
    rw [h]
    exact ⟨by simp, by simp⟩
  unfold getLinks create_graph_layers_builder
  simp only []
  rcases Nat.lt_or_ge i num with hi | hi
  · have houter : (List.map (fun id => List.replicate (level_fn id + 1) ([] : List Nat))
        (List.range num)).getD i [] = List.replicate (level_fn i + 1) [] := by
      rw [List.getD_eq_getElem?_getD, List.getElem?_map]
      simp [List.getElem?_range, hi]
    rw [houter, List.getD_eq_getElem?_getD, List.getElem?_replicate]
    split <;> rfl
  · have houter : (List.map (fun id => List.replicate (level_fn id + 1) ([] : List Nat))
        (List.range num)).getD i [] = [] := by
      rw [List.getD_eq_getElem?_getD]
      have hn : (List.map (fun id => List.replicate (level_fn id + 1) ([] : List Nat))
          (List.range num))[i]? = none := by
        apply List.getElem?_eq_none
        simpa using hi
      rw [hn]
      rfl
    rw [houter]
    simp [List.getD]

theorem fill_ready_list_fields (g : GraphLayersBuilder) :
    (fill_ready_list g).hnsw_m = g.hnsw_m ∧
    (fill_ready_list g).ef_construct = g.ef_construct ∧
    (fill_ready_list g).links_layers = g.links_layers := by
  exact ⟨rfl, rfl, rfl⟩

theorem cpu_link_batch_preserves (cpu : Nat) (stopped : Nat → Bool)
    (sb : Nat → Option (Nat → Nat)) :
    ∀ (ps : List Nat) (g : GraphLayersBuilder) (count polls : Nat)
      (evs : List BuildEvent) (g1 : GraphLayersBuilder) (c1 p1 : Nat),
      cpu_link_batch cpu stopped sb ps g count polls = (evs, .ok (g1, c1, p1)) →
      links_invariant g.hnsw_m g.links_layers →
      g1.hnsw_m = g.hnsw_m ∧ g1.ef_construct = g.ef_construct ∧
        links_invariant g.hnsw_m g1.links_layers := by
  intro ps
  induction ps with
  | nil =>
    intro g count polls evs g1 c1 p1 h hinv
    simp only [cpu_link_batch, Prod.mk.injEq, Except.ok.injEq] at h
    obtain ⟨-, hg, -, -⟩ := h
    subst hg
    exact ⟨rfl, rfl, hinv⟩
  | cons p ps ih =>
    intro g count polls evs g1 c1 p1 h hinv
    simp only [cpu_link_batch] at h
    split at h
    · simp only [Prod.mk.injEq] at h
      exact absurd h.2 (by simp)
    · split at h
      · simp only [Prod.mk.injEq] at h
        exact absurd h.2 (by simp)
      · next scorer heq =>
        split at h
        · simp only [Prod.mk.injEq, Except.ok.injEq] at h
          obtain ⟨-, hg, -, -⟩ := h
          subst hg
          have h1 := links_invariant_link_new_point hinv p scorer
          exact ⟨h1.1, h1.2.1, h1.2.2⟩
        · simp only [Prod.mk.injEq] at h
          obtain ⟨-, h2⟩ := h
          have hlnp := links_invariant_link_new_point hinv p scorer
          have hinv1 : links_invariant (link_new_point g p scorer).hnsw_m
              (link_new_point g p scorer).links_layers := by
            rw [hlnp.1]
            exact hlnp.2.2
          have heq2 : cpu_link_batch cpu stopped sb ps (link_new_point g p scorer)
              (count + 1) (polls + 1) =
              ((cpu_link_batch cpu stopped sb ps (link_new_point g p scorer)
                (count + 1) (polls + 1)).1, .ok (g1, c1, p1)) := by
            rw [← h2]
          have h3 := ih (link_new_point g p scorer) (count + 1) (polls + 1) _ g1 c1 p1
            heq2 hinv1
          rw [hlnp.1] at h3
          refine ⟨h3.1, ?_, h3.2.2⟩
          rw [h3.2.1, hlnp.2.1]

theorem cpu_link_batches_preserves (cpu : Nat) (stopped : Nat → Bool)
    (sb : Nat → Option (Nat → Nat)) :
    ∀ (bs : List (List Nat)) (g : GraphLayersBuilder) (count polls : Nat)
      (evs : List BuildEvent) (g1 : GraphLayersBuilder) (c1 p1 : Nat),
      cpu_link_batches cpu stopped sb bs g count polls = (evs, .ok (g1, c1, p1)) →
      links_invariant g.hnsw_m g.links_layers →
      g1.hnsw_m = g.hnsw_m ∧ g1.ef_construct = g.ef_construct ∧
        links_invariant g.hnsw_m g1.links_layers := by
  intro bs
  induction bs with
  | nil =>
    intro g count polls evs g1 c1 p1 h hinv
    simp only [cpu_link_batches, Prod.mk.injEq, Except.ok.injEq] at h
    obtain ⟨-, hg, -, -⟩ := h
    subst hg
    exact ⟨rfl, rfl, hinv⟩
  | cons b bs ih =>
    intro g count polls evs g1 c1 p1 h hinv
    simp only [cpu_link_batches] at h
    split at h
    · next evs' e heq =>
      simp only [Prod.mk.injEq] at h
      exact absurd h.2 (by simp)
    · next evs' gm cm pm heq =>
      have hmid := cpu_link_batch_preserves cpu stopped sb b g count polls evs' gm cm pm
        heq hinv
      split at h
      · simp only [Prod.mk.injEq, Except.ok.injEq] at h
        obtain ⟨-, hg, -, -⟩ := h
        subst hg
        exact hmid
      · simp only [Prod.mk.injEq] at h
        obtain ⟨-, h2⟩ := h
        have hinvm : links_invariant gm.hnsw_m gm.links_layers := by
          rw [hmid.1]
          exact hmid.2.2
        have heq2 : cpu_link_batches cpu stopped sb bs gm cm pm =
            ((cpu_link_batches cpu stopped sb bs gm cm pm).1, .ok (g1, c1, p1)) := by
          rw [← h2]
        have h3 := ih gm cm pm _ g1 c1 p1 heq2 hinvm
        rw [hmid.1] at h3
        refine ⟨h3.1, ?_, h3.2.2⟩
        rw [h3.2.1, hmid.2.1]

theorem links_invariant_points_fold {hm : HnswM} (ef level : Nat)
    (snapshot : List (List (List Nat))) (entry : List Nat) :
    ∀ (ps : List Nat) (ll : List (List (List Nat))),
      links_invariant hm ll →
      links_invariant hm (ps.foldl
        (fun acc p => setLinks acc p level (gpu_compute_links hm ef level snapshot entry p))
        ll) := by
  intro ps
  induction ps with
  | nil =>
    intro ll h
    exact h
  | cons p rest ih =>
    intro ll h
    simp only [List.foldl_cons]
    apply ih
    apply links_invariant_setLinks h
    · exact select_neighbors_length _ _ _
    · exact select_neighbors_not_self _ _ _

theorem links_invariant_gpu_apply_batch {hm : HnswM} (ef level : Nat)
    (snapshot : List (List (List Nat))) (entry : List Nat) (b : Batch)
    {ll : List (List (List Nat))} (h : links_invariant hm ll) :
    links_invariant hm (gpu_apply_batch hm ef level snapshot entry b ll) := by
  unfold gpu_apply_batch
  exact links_invariant_points_fold ef level snapshot entry b.points ll h

theorem links_invariant_sched_fold {hm : HnswM} (ef level : Nat)
    (snapshot : List (List (List Nat))) (entry : List Nat) (batches : List Batch) :
    ∀ (sched : List Nat) (acc : List (List (List Nat))),
      links_invariant hm acc →
      links_invariant hm (sched.foldl
        (fun acc bi => gpu_apply_batch hm ef level snapshot entry
          (batches.getD bi { level := level, points := [] }) acc) acc) := by
  intro sched
  induction sched with
  | nil =>
    intro acc h
    exact h
  | cons bi rest ih =>
    intro acc h
    simp only [List.foldl_cons]
    apply ih
    exact links_invariant_gpu_apply_batch _ _ _ _ _ h

theorem links_invariant_build_level {hm : HnswM} (ef : Nat) (bp : BatchedPoints)
    (skip level : Nat) (schedule : List Nat) {g : GraphLayersBuilder}
    (h : links_invariant hm g.links_layers) :
    links_invariant hm (build_level_on_gpu hm ef bp skip level schedule g).links_layers := by
  unfold build_level_on_gpu
  exact links_invariant_sched_fold ef level g.links_layers g.entry_points _ schedule
    g.links_layers h

theorem build_level_fields (hm : HnswM) (ef : Nat) (bp : BatchedPoints)
    (skip level : Nat) (schedule : List Nat) (g : GraphLayersBuilder) :
    (build_level_on_gpu hm ef bp skip level schedule g).hnsw_m = g.hnsw_m ∧
    (build_level_on_gpu hm ef bp skip level schedule g).ef_construct = g.ef_construct := by
  exact ⟨rfl, rfl⟩

theorem gpu_build_levels_preserves (hm : HnswM) (ef : Nat) (bp : BatchedPoints)
    (skip : Nat) (gpu_fails : BuildEvent → Bool) (schedule : Nat → List Nat) :
    ∀ (ls : List Nat) (g : GraphLayersBuilder) (evs : List BuildEvent)
      (g' : GraphLayersBuilder),
      gpu_build_levels hm ef bp skip gpu_fails schedule ls g = (evs, .ok g') →
      links_invariant hm g.links_layers →
      links_invariant hm g'.links_layers ∧ g'.hnsw_m = g.hnsw_m ∧
        g'.ef_construct = g.ef_construct := by
  intro ls
  induction ls with
  | nil =>
    intro g evs g' h hinv
    simp only [gpu_build_levels, Prod.mk.injEq, Except.ok.injEq] at h
    obtain ⟨-, hg⟩ := h
    subst hg
    exact ⟨hinv, rfl, rfl⟩
  | cons level rest ih =>
    intro g evs g' h hinv
    simp only [gpu_build_levels] at h
    split at h
    · simp only [Prod.mk.injEq] at h
      exact absurd h.2 (by simp)
    · split at h
      · simp only [Prod.mk.injEq] at h
        exact absurd h.2 (by simp)
      · split at h
        · simp only [Prod.mk.injEq] at h
          exact absurd h.2 (by simp)
        · simp only [Prod.mk.injEq] at h
          obtain ⟨-, h2⟩ := h
          have hstep := links_invariant_build_level ef bp skip level (schedule level) hinv
          have heq2 : gpu_build_levels hm ef bp skip gpu_fails schedule rest
              (build_level_on_gpu hm ef bp skip level (schedule level) g) =
              ((gpu_build_levels hm ef bp skip gpu_fails schedule rest
                (build_level_on_gpu hm ef bp skip level (schedule level) g)).1, .ok g') := by
            rw [← h2]
          have h3 := ih (build_level_on_gpu hm ef bp skip level (schedule level) g) _ g'
            heq2 hstep
          have hf := build_level_fields hm ef bp skip level (schedule level) g
          exact ⟨h3.1, by rw [h3.2.1, hf.1], by rw [h3.2.2, hf.2]⟩

theorem build_hnsw_on_gpu_ok_fields (reference_graph : GraphLayersBuilder)
    (groups_count entry_points_num cpu_linked_points : Nat) (ids : List Nat)
    (scorer_builder : Nat → Option (Nat → Nat)) (stopped : Nat → Bool)
    (gpu_init_fails : Bool) (gpu_fails : BuildEvent → Bool)
    (schedule : Nat → List Nat) (tr : List BuildEvent) (g : GraphLayersBuilder)
    (h : build_hnsw_on_gpu reference_graph groups_count entry_points_num
      cpu_linked_points ids scorer_builder stopped gpu_init_fails gpu_fails schedule
      = (tr, .ok g)) :
    g.hnsw_m = reference_graph.hnsw_m ∧
    g.ef_construct = max reference_graph.ef_construct reference_graph.hnsw_m.m0 ∧
    links_invariant reference_graph.hnsw_m g.links_layers := by
  simp only [build_hnsw_on_gpu] at h
  split at h
  · simp only [Prod.mk.injEq] at h
    exact absurd h.2 (by simp)
  · next evs g1 count polls heq =>
    have hg0inv := links_invariant_create
      (fun id => reference_graph.get_point_level id)
      reference_graph.links_layers.length reference_graph.hnsw_m
      (max reference_graph.ef_construct reference_graph.hnsw_m.m0) entry_points_num
    have hcpu := cpu_link_batches_preserves cpu_linked_points stopped scorer_builder
      _ _ 0 0 evs g1 count polls heq hg0inv
    split at h
    · simp only [Prod.mk.injEq, Except.ok.injEq] at h
      obtain ⟨-, hg⟩ := h
      subst hg
      exact ⟨hcpu.1, hcpu.2.1, hcpu.2.2⟩
    · split at h
      · simp only [Prod.mk.injEq] at h
        exact absurd h.2 (by simp)
      · simp only [Prod.mk.injEq] at h
        obtain ⟨-, h2⟩ := h
        have hinv2 : links_invariant reference_graph.hnsw_m
            (fill_ready_list g1).links_layers := hcpu.2.2
        have heqr : gpu_build_levels reference_graph.hnsw_m
            (max reference_graph.ef_construct reference_graph.hnsw_m.m0)
            (BatchedPoints.new (fun id => reference_graph.get_point_level id) ids
              groups_count) cpu_linked_points gpu_fails schedule
            ((List.range (BatchedPoints.new
              (fun id => reference_graph.get_point_level id) ids
              groups_count).levels_count).reverse) (fill_ready_list g1) =
            ((gpu_build_levels reference_graph.hnsw_m
              (max reference_graph.ef_construct reference_graph.hnsw_m.m0)
              (BatchedPoints.new (fun id => reference_graph.get_point_level id) ids
                groups_count) cpu_linked_points gpu_fails schedule
              ((List.range (BatchedPoints.new
                (fun id => reference_graph.get_point_level id) ids
                groups_count).levels_count).reverse) (fill_ready_list g1)).1,
              .ok g) := by
          rw [← h2]
        have h3 := gpu_build_levels_preserves reference_graph.hnsw_m
          (max reference_graph.ef_construct reference_graph.hnsw_m.m0)
          (BatchedPoints.new (fun id => reference_graph.get_point_level id) ids
            groups_count) cpu_linked_points gpu_fails schedule _ _ _ _ heqr hinv2
        refine ⟨?_, ?_, h3.1⟩
        · rw [h3.2.1]
          exact hcpu.1
        · rw [h3.2.2]
          exact hcpu.2.1

/-! ## Claim theorems: parameters and invariants -/

/-- C10: `HnswM::new2(m)` produces the pair `(m, m0 = 2 * m)` (so `new2 8`
is the `(m = 8, m0 = 16)` configuration), and for such a pair `level_m`
returns `2 * m` at level 0 and `m` at every level above 0. -/
theorem hnswM_new2_spec (m : Nat) :
    HnswM.new2 m = HnswM.new m (2 * m) ∧
    (HnswM.new2 m).level_m 0 = 2 * m ∧
    ∀ level, 0 < level → (HnswM.new2 m).level_m level = m := by
  refine ⟨rfl, rfl, ?_⟩
  intro level h
  unfold HnswM.new2 HnswM.level_m
  rw [if_neg (by omega)]

/-- Witness for `hnswM_new2_spec` at `m = 8`, `level = 1`. -/
theorem hnswM_new2_spec_witness :
    HnswM.new2 8 = HnswM.new 8 16 ∧
    (HnswM.new2 8).level_m 0 = 16 ∧
    (0 < 1 ∧ (HnswM.new2 8).level_m 1 = 8) := by
  have h := hnswM_new2_spec 8
  exact ⟨h.1, h.2.1, by decide, h.2.2 1 (by decide)⟩

/-- C8: `build_hnsw_on_gpu` derives the effective candidate-frontier size
as `ef = max(ef_construct, m0)` from the reference graph, and any builder
it returns carries exactly this `ef` (and the reference graph's `(m, m0)`),
i.e. the derived `ef` is the one used for the builder it creates. -/
theorem hnsw_effective_ef (reference_graph : GraphLayersBuilder)
    (groups_count entry_points_num cpu_linked_points : Nat) (ids : List Nat)
    (scorer_builder : Nat → Option (Nat → Nat)) (stopped : Nat → Bool)
    (gpu_init_fails : Bool) (gpu_fails : BuildEvent → Bool)
    (schedule : Nat → List Nat) (tr : List BuildEvent) (g : GraphLayersBuilder)
    (h : build_hnsw_on_gpu reference_graph groups_count entry_points_num
      cpu_linked_points ids scorer_builder stopped gpu_init_fails gpu_fails schedule
      = (tr, .ok g)) :
    g.hnsw_m = reference_graph.hnsw_m ∧
    g.ef_construct = max reference_graph.ef_construct reference_graph.hnsw_m.m0 := by
  have h1 := build_hnsw_on_gpu_ok_fields reference_graph groups_count
    entry_points_num cpu_linked_points ids scorer_builder stopped gpu_init_fails
    gpu_fails schedule tr g h
  exact ⟨h1.1, h1.2.1⟩

/-- Witness for `hnsw_effective_ef` on the `exampleRef` build:
`ef = max(3, 4) = 4`. -/
theorem hnsw_effective_ef_witness :
    build_hnsw_on_gpu exampleRef 2 1 1 [0, 1, 2] (fun _ => some (fun x => x))
        (fun _ => false) false (fun _ => false) (fun _ => [0])
      = (exampleBuildTrace, .ok exampleBuildResult) ∧
    (exampleBuildResult.hnsw_m = exampleRef.hnsw_m ∧
      exampleBuildResult.ef_construct
        = max exampleRef.ef_construct exampleRef.hnsw_m.m0) := by
  have heq : build_hnsw_on_gpu exampleRef 2 1 1 [0, 1, 2]
      (fun _ => some (fun x => x)) (fun _ => false) false (fun _ => false)
      (fun _ => [0]) = (exampleBuildTrace, .ok exampleBuildResult) := by decide
  exact ⟨heq, hnsw_effective_ef exampleRef 2 1 1 [0, 1, 2]
    (fun _ => some (fun x => x)) (fun _ => false) false (fun _ => false)
    (fun _ => [0]) exampleBuildTrace exampleBuildResult heq⟩

/-- C1: every builder returned by a completed `build_hnsw_on_gpu` satisfies
the links invariant: each point's adjacency list at `level` has at most
`level_m(level)` entries (`m0` at level 0, `m` above), and no list contains
the point's own id. -/
theorem hnsw_build_links_invariant (reference_graph : GraphLayersBuilder)
    (groups_count entry_points_num cpu_linked_points : Nat) (ids : List Nat)
    (scorer_builder : Nat → Option (Nat → Nat)) (stopped : Nat → Bool)
    (gpu_init_fails : Bool) (gpu_fails : BuildEvent → Bool)
    (schedule : Nat → List Nat) (tr : List BuildEvent) (g : GraphLayersBuilder)
    (h : build_hnsw_on_gpu reference_graph groups_count entry_points_num
      cpu_linked_points ids scorer_builder stopped gpu_init_fails gpu_fails schedule
      = (tr, .ok g)) :
    links_invariant g.hnsw_m g.links_layers := by
  have h1 := build_hnsw_on_gpu_ok_fields reference_graph groups_count
    entry_points_num cpu_linked_points ids scorer_builder stopped gpu_init_fails
    gpu_fails schedule tr g h
  rw [h1.1]
  exact h1.2.2

/-- Witness for `hnsw_build_links_invariant` on the `exampleRef` build. -/
theorem hnsw_build_links_invariant_witness :
    build_hnsw_on_gpu exampleRef 2 1 1 [0, 1, 2] (fun _ => some (fun x => x))
        (fun _ => false) false (fun _ => false) (fun _ => [0])
      = (exampleBuildTrace, .ok exampleBuildResult) ∧
    links_invariant exampleBuildResult.hnsw_m exampleBuildResult.links_layers := by
  have heq : build_hnsw_on_gpu exampleRef 2 1 1 [0, 1, 2]
      (fun _ => some (fun x => x)) (fun _ => false) false (fun _ => false)
      (fun _ => [0]) = (exampleBuildTrace, .ok exampleBuildResult) := by decide
  exact ⟨heq, hnsw_build_links_invariant exampleRef 2 1 1 [0, 1, 2]
    (fun _ => some (fun x => x)) (fun _ => false) false (fun _ => false)
    (fun _ => [0]) exampleBuildTrace exampleBuildResult heq⟩

/-! ## Claim theorems: orchestration -/

theorem cpu_link_batch_events (cpu : Nat) (stopped : Nat → Bool)
    (sb : Nat → Option (Nat → Nat)) :
    ∀ (ps : List Nat) (g : GraphLayersBuilder) (count polls : Nat),
      ∀ e ∈ (cpu_link_batch cpu stopped sb ps g count polls).1,
        e = .pollStop ∨ ∃ p, e = .linkPoint p := by
  intro ps
  induction ps with
  | nil =>
    intro g count polls e he
    simp [cpu_link_batch] at he
  | cons p ps ih =>
    intro g count polls e he
    simp only [cpu_link_batch] at he
    split at he
    · simp at he
      simp [he]
    · split at he
      · simp at he
        simp [he]
      · split at he
        · simp at he
          rcases he with he | he
          · simp [he]
          · exact Or.inr ⟨p, he⟩
        · simp at he
          rcases he with he | he | he
          · simp [he]
          · exact Or.inr ⟨p, he⟩
          · exact ih _ _ _ e he

theorem cpu_link_batches_events (cpu : Nat) (stopped : Nat → Bool)
    (sb : Nat → Option (Nat → Nat)) :
    ∀ (bs : List (List Nat)) (g : GraphLayersBuilder) (count polls : Nat),
      ∀ e ∈ (cpu_link_batches cpu stopped sb bs g count polls).1,
        e = .pollStop ∨ ∃ p, e = .linkPoint p := by
  intro bs
  induction bs with
  | nil =>
    intro g count polls e he
    simp [cpu_link_batches] at he
  | cons b bs ih =>
    intro g count polls e he
    simp only [cpu_link_batches] at he
    split at he
    · next evs' err heq =>
      have : evs' = (cpu_link_batch cpu stopped sb b g count polls).1 := by
        rw [heq]
      rw [this] at he
      exact cpu_link_batch_events cpu stopped sb b g count polls e he
    · next evs' gm cm pm heq =>
      have hevs : evs' = (cpu_link_batch cpu stopped sb b g count polls).1 := by
        rw [heq]
      split at he
      · rw [hevs] at he
        exact cpu_link_batch_events cpu stopped sb b g count polls e he
      · simp only [List.mem_append] at he
        rcases he with he | he
        · rw [hevs] at he
          exact cpu_link_batch_events cpu stopped sb b g count polls e he
        · exact ih _ _ _ e he

/-- C6: when after the CPU seeding phase no batches remain
(`iter_batches(cpu_linked_points_count)` is empty), `build_hnsw_on_gpu`
returns the builder immediately as a pure CPU-built result: the trace is the
CPU trace plus `fill_ready_list` and contains no GPU operation at all — no
`init`, `upload_links`, level build or `download_links`. -/
theorem hnsw_cpu_only_early_return (reference_graph : GraphLayersBuilder)
    (groups_count entry_points_num cpu_linked_points : Nat) (ids : List Nat)
    (scorer_builder : Nat → Option (Nat → Nat)) (stopped : Nat → Bool)
    (gpu_init_fails : Bool) (gpu_fails : BuildEvent → Bool)
    (schedule : Nat → List Nat) (evs : List BuildEvent)
    (g1 : GraphLayersBuilder) (count polls : Nat)
    (hcpu : cpu_link_batches cpu_linked_points stopped scorer_builder
      (((BatchedPoints.new (fun id => reference_graph.get_point_level id) ids
          groups_count).iter_batches 0).map (fun b => b.points))
      (create_graph_layers_builder (fun id => reference_graph.get_point_level id)
        reference_graph.links_layers.length reference_graph.hnsw_m
        (max reference_graph.ef_construct reference_graph.hnsw_m.m0)
        entry_points_num) 0 0
      = (evs, .ok (g1, count, polls)))
    (hempty : ((BatchedPoints.new (fun id => reference_graph.get_point_level id)
      ids groups_count).iter_batches count).isEmpty = true) :
    build_hnsw_on_gpu reference_graph groups_count entry_points_num
        cpu_linked_points ids scorer_builder stopped gpu_init_fails gpu_fails schedule
      = (evs ++ [.fillReady], .ok (fill_ready_list g1)) ∧
    (build_hnsw_on_gpu reference_graph groups_count entry_points_num
        cpu_linked_points ids scorer_builder stopped gpu_init_fails gpu_fails
        schedule).1.all (fun e => !isGpuOp e) = true := by
  have hbuild : build_hnsw_on_gpu reference_graph groups_count entry_points_num
      cpu_linked_points ids scorer_builder stopped gpu_init_fails gpu_fails schedule
      = (evs ++ [.fillReady], .ok (fill_ready_list g1)) := by
    simp only [build_hnsw_on_gpu]
    rw [hcpu]
    simp only [hempty]
    rfl
  refine ⟨hbuild, ?_⟩
  rw [hbuild]
  rw [List.all_eq_true]
  intro e he
  simp only [List.mem_append, List.mem_singleton] at he
  rcases he with he | he
  · have h2 : evs = (cpu_link_batches cpu_linked_points stopped scorer_builder
        (((BatchedPoints.new (fun id => reference_graph.get_point_level id) ids
            groups_count).iter_batches 0).map (fun b => b.points))
        (create_graph_layers_builder (fun id => reference_graph.get_point_level id)
          reference_graph.links_layers.length reference_graph.hnsw_m
          (max reference_graph.ef_construct reference_graph.hnsw_m.m0)
          entry_points_num) 0 0).1 := by
      rw [hcpu]
    rw [h2] at he
    rcases cpu_link_batches_events _ _ _ _ _ _ _ e he with h3 | ⟨p, h3⟩ <;>
      simp [h3, isGpuOp, isLevelOp]
  · simp [he, isGpuOp, isLevelOp]


/-- Witness for `hnsw_cpu_only_early_return`: with `cpu_linked_points = 3`
all three points of `exampleRef` are linked on CPU and no batch remains. -/
theorem hnsw_cpu_only_early_return_witness :
    build_hnsw_on_gpu exampleRef 2 1 3 [0, 1, 2] (fun _ => some (fun x => x))
        (fun _ => false) false (fun _ => false) (fun _ => [0])
      = ([.pollStop, .linkPoint 0, .pollStop, .linkPoint 1, .pollStop, .linkPoint 2]
          ++ [.fillReady],
         .ok (fill_ready_list
           { hnsw_m := { m := 2, m0 := 4 }, ef_construct := 4,
             links_layers := [[[1, 2], []], [[0, 2]], [[0, 1]]],
             ready := [false, false, false], entry_points := [0] })) ∧
    (build_hnsw_on_gpu exampleRef 2 1 3 [0, 1, 2]
        (fun _ => some (fun x => x)) (fun _ => false) false (fun _ => false)
        (fun _ => [0])).1.all (fun e => !isGpuOp e) = true :=
  hnsw_cpu_only_early_return exampleRef 2 1 3 [0, 1, 2]
    (fun _ => some (fun x => x)) (fun _ => false) false (fun _ => false)
    (fun _ => [0])
    [.pollStop, .linkPoint 0, .pollStop, .linkPoint 1, .pollStop, .linkPoint 2]
    { hnsw_m := { m := 2, m0 := 4 }, ef_construct := 4,
      links_layers := [[[1, 2], []], [[0, 2]], [[0, 1]]],
      ready := [false, false, false], entry_points := [0] }
    3 3 (by decide) (by decide)

theorem seed_trace_cons (p : Nat) (ps : List Nat) :
    seed_trace (p :: ps) = .pollStop :: .linkPoint p :: seed_trace ps := by
  simp [seed_trace]

theorem linked_points_seed_trace (ps : List Nat) :
    linked_points (seed_trace ps) = ps := by
  induction ps with
  | nil => rfl
  | cons p ps ih =>
    rw [seed_trace_cons]
    simpa [linked_points] using ih

theorem count_pollStop_seed_trace (ps : List Nat) :
    (seed_trace ps).count .pollStop = ps.length := by
  induction ps with
  | nil => rfl
  | cons p ps ih =>
    rw [seed_trace_cons]
    rw [List.count_cons, List.count_cons]
    simp [ih]

theorem cpu_link_batch_ok (cpu k : Nat) (stopped : Nat → Bool)
    (sb : Nat → Option (Nat → Nat))
    (hstop : ∀ j, stopped j = true ↔ k ≤ j)
    (hsb : ∀ p, (sb p).isSome = true) :
    ∀ (ps : List Nat) (g : GraphLayersBuilder) (count polls : Nat),
      count < cpu →
      polls + min (cpu - count) ps.length ≤ k →
      ∃ g', cpu_link_batch cpu stopped sb ps g count polls
        = (seed_trace (ps.take (min (cpu - count) ps.length)),
           .ok (g', count + min (cpu - count) ps.length,
                polls + min (cpu - count) ps.length)) := by
  intro ps
  induction ps with
  | nil =>
    intro g count polls h1 h2
    refine ⟨g, ?_⟩
    simp [cpu_link_batch, seed_trace]
  | cons p ps ih =>
    intro g count polls h1 h2
    have hmin1 : 1 ≤ min (cpu - count) (p :: ps).length := by
      simp only [List.length_cons]
      omega
    have hnotstop : stopped polls = false := by
      rcases Bool.eq_false_or_eq_true (stopped polls) with h | h
      · rw [hstop polls] at h
        omega
      · exact h
    obtain ⟨scorer, hsc⟩ := Option.isSome_iff_exists.mp (hsb p)
    simp only [cpu_link_batch, hnotstop, Bool.false_eq_true, if_false, hsc]
    by_cases hbr : cpu ≤ count + 1
    · have hm : min (cpu - count) (p :: ps).length = 1 := by
        simp only [List.length_cons]
        omega
      rw [if_pos hbr, hm]
      refine ⟨link_new_point g p scorer, ?_⟩
      simp [seed_trace]
    · rw [if_neg hbr]
      have h1' : count + 1 < cpu := by omega
      have hmeq : min (cpu - (count + 1)) ps.length
          = min (cpu - count) (p :: ps).length - 1 := by
        simp only [List.length_cons]
        omega
      have h2' : polls + 1 + min (cpu - (count + 1)) ps.length ≤ k := by
        rw [hmeq]
        simp only [List.length_cons] at h2 ⊢
        omega
      obtain ⟨g', hg'⟩ := ih (link_new_point g p scorer) (count + 1) (polls + 1) h1' h2'
      refine ⟨g', ?_⟩
      rw [hg']
      have htake : (p :: ps).take (min (cpu - count) (p :: ps).length)
          = p :: ps.take (min (cpu - (count + 1)) ps.length) := by
        rw [hmeq]
        have : min (cpu - count) (p :: ps).length
            = (min (cpu - count) (p :: ps).length - 1) + 1 := by omega
        rw [this]
        simp
      rw [htake, seed_trace_cons]
      have e1 : count + 1 + min (cpu - (count + 1)) ps.length
          = count + min (cpu - count) (p :: ps).length := by
        rw [hmeq]
        omega
      have e2 : polls + 1 + min (cpu - (count + 1)) ps.length
          = polls + min (cpu - count) (p :: ps).length := by
        rw [hmeq]
        omega
      rw [e1, e2]

theorem cpu_link_batch_interrupted (cpu k : Nat) (stopped : Nat → Bool)
    (sb : Nat → Option (Nat → Nat))
    (hstop : ∀ j, stopped j = true ↔ k ≤ j)
    (hsb : ∀ p, (sb p).isSome = true) :
    ∀ (ps : List Nat) (g : GraphLayersBuilder) (count polls : Nat),
      count < cpu →
      polls ≤ k →
      k < polls + min (cpu - count) ps.length →
      cpu_link_batch cpu stopped sb ps g count polls
        = (seed_trace (ps.take (k - polls)) ++ [.pollStop], .error .interrupted) := by
  intro ps
  induction ps with
  | nil =>
    intro g count polls h1 h2 h3
    simp only [List.length_nil] at h3
    omega
  | cons p ps ih =>
    intro g count polls h1 h2 h3
    by_cases hkp : k ≤ polls
    · have hk : k = polls := by omega
      have hstopped : stopped polls = true := (hstop polls).mpr (by omega)
      simp only [cpu_link_batch, hstopped, if_true]
      rw [hk]
      simp [seed_trace]
    · have hnotstop : stopped polls = false := by
        rcases Bool.eq_false_or_eq_true (stopped polls) with h | h
        · rw [hstop polls] at h
          omega
        · exact h
      obtain ⟨scorer, hsc⟩ := Option.isSome_iff_exists.mp (hsb p)
      simp only [cpu_link_batch, hnotstop, Bool.false_eq_true, if_false, hsc]
      by_cases hbr : cpu ≤ count + 1
      · exfalso
        have : min (cpu - count) (p :: ps).length = 1 := by
          simp only [List.length_cons]
          omega
        omega
      · rw [if_neg hbr]
        have h1' : count + 1 < cpu := by omega
        have h2' : polls + 1 ≤ k := by omega
        have h3' : k < polls + 1 + min (cpu - (count + 1)) ps.length := by
          simp only [List.length_cons] at h3
          omega
        rw [ih (link_new_point g p scorer) (count + 1) (polls + 1) h1' h2' h3']
        have htake : (p :: ps).take (k - polls) = p :: ps.take (k - (polls + 1)) := by
          have : k - polls = (k - (polls + 1)) + 1 := by omega
          rw [this]
          simp
        rw [htake, seed_trace_cons]
        rfl

theorem seed_trace_append (xs ys : List Nat) :
    seed_trace (xs ++ ys) = seed_trace xs ++ seed_trace ys := by
  simp [seed_trace]

theorem cpu_link_batches_ok (cpu k : Nat) (stopped : Nat → Bool)
    (sb : Nat → Option (Nat → Nat))
    (hstop : ∀ j, stopped j = true ↔ k ≤ j)
    (hsb : ∀ p, (sb p).isSome = true) :
    ∀ (bs : List (List Nat)) (g : GraphLayersBuilder) (count polls : Nat),
      count < cpu →
      polls + min (cpu - count) bs.flatten.length ≤ k →
      ∃ g', cpu_link_batches cpu stopped sb bs g count polls
        = (seed_trace (bs.flatten.take (min (cpu - count) bs.flatten.length)),
           .ok (g', count + min (cpu - count) bs.flatten.length,
                polls + min (cpu - count) bs.flatten.length)) := by
  intro bs
  induction bs with
  | nil =>
    intro g count polls h1 h2
    refine ⟨g, ?_⟩
    simp [cpu_link_batches, seed_trace]
  | cons b bs ih =>
    intro g count polls h1 h2
    have hflat : (b :: bs).flatten = b ++ bs.flatten := by simp
    have hlen : (b :: bs).flatten.length = b.length + bs.flatten.length := by simp
    have hb1 : polls + min (cpu - count) b.length ≤ k := by
      rw [hlen] at h2
      omega
    obtain ⟨g', hb⟩ := cpu_link_batch_ok cpu k stopped sb hstop hsb b g count polls h1 hb1
    simp only [cpu_link_batches, hb]
    by_cases hbr : cpu ≤ count + min (cpu - count) b.length
    · have ha1 : min (cpu - count) b.length = cpu - count := by omega
      have ha2 : min (cpu - count) (b :: bs).flatten.length = cpu - count := by
        rw [hlen]
        omega
      rw [if_pos hbr]
      refine ⟨g', ?_⟩
      rw [ha1, ha2, hflat]
      rw [List.take_append_of_le_length (by omega)]
    · rw [if_neg hbr]
      have ha1 : min (cpu - count) b.length = b.length := by omega
      have h1' : count + min (cpu - count) b.length < cpu := by omega
      have h2' : polls + min (cpu - count) b.length +
          min (cpu - (count + min (cpu - count) b.length)) bs.flatten.length ≤ k := by
        rw [ha1] at *
        rw [hlen] at h2
        omega
      obtain ⟨g'', hrec⟩ := ih g' (count + min (cpu - count) b.length)
        (polls + min (cpu - count) b.length) h1' h2'
      refine ⟨g'', ?_⟩
      rw [hrec]
      rw [ha1] at *
      have hmineq : min (cpu - count) (b :: bs).flatten.length
          = b.length + min (cpu - (count + b.length)) bs.flatten.length := by
        rw [hlen]
        omega
      have htake : (b :: bs).flatten.take (min (cpu - count) (b :: bs).flatten.length)
          = b ++ bs.flatten.take (min (cpu - (count + b.length)) bs.flatten.length) := by
        rw [hmineq, hflat]
        rw [List.take_append]
      rw [htake, seed_trace_append]
      have e1 : count + b.length + min (cpu - (count + b.length)) bs.flatten.length
          = count + min (cpu - count) (b :: bs).flatten.length := by
        rw [hmineq]
        omega
      have e2 : polls + b.length + min (cpu - (count + b.length)) bs.flatten.length
          = polls + min (cpu - count) (b :: bs).flatten.length := by
        rw [hmineq]
        omega
      simp only [List.take_length, Prod.mk.injEq, Except.ok.injEq, true_and]
      exact ⟨e1, e2⟩

theorem cpu_link_batches_interrupted (cpu k : Nat) (stopped : Nat → Bool)
    (sb : Nat → Option (Nat → Nat))
    (hstop : ∀ j, stopped j = true ↔ k ≤ j)
    (hsb : ∀ p, (sb p).isSome = true) :
    ∀ (bs : List (List Nat)) (g : GraphLayersBuilder) (count polls : Nat),
      count < cpu →
      polls ≤ k →
      k < polls + min (cpu - count) bs.flatten.length →
      cpu_link_batches cpu stopped sb bs g count polls
        = (seed_trace (bs.flatten.take (k - polls)) ++ [.pollStop],
           .error .interrupted) := by
  intro bs
  induction bs with
  | nil =>
    intro g count polls h1 h2 h3
    simp only [List.flatten_nil, List.length_nil] at h3
    omega
  | cons b bs ih =>
    intro g count polls h1 h2 h3
    have hflat : (b :: bs).flatten = b ++ bs.flatten := by simp
    have hlen : (b :: bs).flatten.length = b.length + bs.flatten.length := by simp
    by_cases hin : k < polls + min (cpu - count) b.length
    · have hbint := cpu_link_batch_interrupted cpu k stopped sb hstop hsb b g count polls
        h1 h2 hin
      simp only [cpu_link_batches, hbint]
      rw [hflat, List.take_append_of_le_length (by omega)]
    · have hb1 : polls + min (cpu - count) b.length ≤ k := by omega
      obtain ⟨g', hb⟩ := cpu_link_batch_ok cpu k stopped sb hstop hsb b g count polls h1 hb1
      simp only [cpu_link_batches, hb]
      by_cases hbr : cpu ≤ count + min (cpu - count) b.length
      · exfalso
        have ha2 : min (cpu - count) (b :: bs).flatten.length = cpu - count := by
          rw [hlen]
          omega
        omega
      · rw [if_neg hbr]
        have ha1 : min (cpu - count) b.length = b.length := by omega
        have h1' : count + min (cpu - count) b.length < cpu := by omega
        have h2' : polls + min (cpu - count) b.length ≤ k := hb1
        have h3' : k < polls + min (cpu - count) b.length +
            min (cpu - (count + min (cpu - count) b.length)) bs.flatten.length := by
          rw [ha1] at *
          rw [hlen] at h3
          omega
        rw [ih g' (count + min (cpu - count) b.length)
          (polls + min (cpu - count) b.length) h1' h2' h3']
        rw [ha1] at *
        have htake : (b :: bs).flatten.take (k - polls)
            = b ++ bs.flatten.take (k - (polls + b.length)) := by
          rw [hflat]
          have : k - polls = b.length + (k - (polls + b.length)) := by omega
          rw [this, List.take_append]
        rw [htake, seed_trace_append]
        simp

theorem gpu_build_levels_events (hm : HnswM) (ef : Nat) (bp : BatchedPoints)
    (skip : Nat) (gpu_fails : BuildEvent → Bool) (schedule : Nat → List Nat) :
    ∀ (ls : List Nat) (g : GraphLayersBuilder),
      ∀ e ∈ (gpu_build_levels hm ef bp skip gpu_fails schedule ls g).1,
        isLevelOp e = true := by
  intro ls
  induction ls with
  | nil =>
    intro g e he
    simp [gpu_build_levels] at he
  | cons level rest ih =>
    intro g e he
    simp only [gpu_build_levels] at he
    split at he
    · simp at he
    · split at he
      · simp at he
        simp [he, isLevelOp]
      · split at he
        · simp at he
          rcases he with he | he <;> simp [he, isLevelOp]
        · simp only [List.mem_cons] at he
          rcases he with he | he | he | he
          · simp [he, isLevelOp]
          · simp [he, isLevelOp]
          · simp [he, isLevelOp]
          · exact ih _ e he

theorem linked_points_append (xs ys : List BuildEvent) :
    linked_points (xs ++ ys) = linked_points xs ++ linked_points ys := by
  simp [linked_points]

theorem linked_points_of_level_ops (tr : List BuildEvent)
    (h : ∀ e ∈ tr, isLevelOp e = true) : linked_points tr = [] := by
  induction tr with
  | nil => rfl
  | cons e rest ih =>
    have he := h e (by simp)
    have hrest := ih (fun e' he' => h e' (List.mem_cons_of_mem _ he'))
    cases e <;> simp [isLevelOp] at he ⊢ <;> simp [linked_points] at hrest ⊢ <;>
      exact hrest

theorem count_pollStop_of_level_ops (tr : List BuildEvent)
    (h : ∀ e ∈ tr, isLevelOp e = true) : tr.count .pollStop = 0 := by
  rw [List.count_eq_zero]
  intro hmem
  have := h _ hmem
  simp [isLevelOp] at this

/-- C5 counterexample: the claim says exactly the first
`min(cpu_linked_points, total)` points are linked on CPU.  With
`cpu_linked_points = 0` the loop checks its termination condition only
*after* linking a point, so one point is still linked
(`min(0, 3) = 0`, yet `linkPoint 0` occurs). -/
theorem hnsw_cpu_seed_cex :
    linked_points (build_hnsw_on_gpu exampleRef 2 1 0 [0, 1, 2]
        (fun _ => some (fun x => x)) (fun _ => false) false (fun _ => false)
        (fun _ => [0])).1 = [0] ∧
    min 0 (seeding_order exampleRef [0, 1, 2] 2).length = 0 := by
  constructor
  · decide
  · decide

/-- C5 (amended): for `cpu_linked_points ≥ 1` (the loop's post-link
termination check links one extra point when the quota is 0), the CPU
warm-start phase of `build_hnsw_on_gpu` links exactly the first
`min(cpu_linked_points, total)` points in batch-0 order, polling the stop
flag once before each point; with a stop flag that first reads true at poll
`k` (`stopped j ↔ k ≤ j`, the one-way `AtomicBool`), an early cancellation
(`k` below the number of points to link) makes the call return an
interrupted error after linking exactly the first `k` points. -/
theorem hnsw_cpu_seeding (reference_graph : GraphLayersBuilder)
    (groups_count entry_points_num cpu_linked_points : Nat) (ids : List Nat)
    (scorer_builder : Nat → Option (Nat → Nat)) (stopped : Nat → Bool)
    (gpu_init_fails : Bool) (gpu_fails : BuildEvent → Bool)
    (schedule : Nat → List Nat) (k : Nat)
    (hclp : 1 ≤ cpu_linked_points)
    (hsb : ∀ p, (scorer_builder p).isSome = true)
    (hstop : ∀ j, stopped j = true ↔ k ≤ j) :
    (min cpu_linked_points (seeding_order reference_graph ids groups_count).length ≤ k →
      linked_points (build_hnsw_on_gpu reference_graph groups_count entry_points_num
          cpu_linked_points ids scorer_builder stopped gpu_init_fails gpu_fails
          schedule).1
        = (seeding_order reference_graph ids groups_count).take
            (min cpu_linked_points (seeding_order reference_graph ids groups_count).length) ∧
      (build_hnsw_on_gpu reference_graph groups_count entry_points_num
          cpu_linked_points ids scorer_builder stopped gpu_init_fails gpu_fails
          schedule).1.count .pollStop
        = min cpu_linked_points (seeding_order reference_graph ids groups_count).length) ∧
    (k < min cpu_linked_points (seeding_order reference_graph ids groups_count).length →
      linked_points (build_hnsw_on_gpu reference_graph groups_count entry_points_num
          cpu_linked_points ids scorer_builder stopped gpu_init_fails gpu_fails
          schedule).1
        = (seeding_order reference_graph ids groups_count).take k ∧
      (build_hnsw_on_gpu reference_graph groups_count entry_points_num
          cpu_linked_points ids scorer_builder stopped gpu_init_fails gpu_fails
          schedule).1.count .pollStop = k + 1 ∧
      (build_hnsw_on_gpu reference_graph groups_count entry_points_num
          cpu_linked_points ids scorer_builder stopped gpu_init_fails gpu_fails
          schedule).2 = .error .interrupted) := by
  constructor
  · intro hk
    obtain ⟨g', hcpu⟩ := cpu_link_batches_ok cpu_linked_points k stopped
      scorer_builder hstop hsb
      (((BatchedPoints.new (fun id => reference_graph.get_point_level id) ids
          groups_count).iter_batches 0).map (fun b => b.points))
      (create_graph_layers_builder (fun id => reference_graph.get_point_level id)
        reference_graph.links_layers.length reference_graph.hnsw_m
        (max reference_graph.ef_construct reference_graph.hnsw_m.m0)
        entry_points_num) 0 0 (by omega)
      (by
        simp only [Nat.sub_zero, Nat.zero_add]
        exact hk)
    simp only [build_hnsw_on_gpu, hcpu, Nat.sub_zero, Nat.zero_add]
    split
    · constructor
      · rw [linked_points_append, linked_points_seed_trace]
        simp [linked_points, seeding_order]
      · rw [List.count_append, count_pollStop_seed_trace]
        simp [seeding_order]
    · split
      · constructor
        · rw [linked_points_append, linked_points_seed_trace]
          simp [linked_points, seeding_order]
        · rw [List.count_append, count_pollStop_seed_trace]
          simp [seeding_order]
      · have hlvl0 := gpu_build_levels_events reference_graph.hnsw_m
          (max reference_graph.ef_construct reference_graph.hnsw_m.m0)
          (BatchedPoints.new (fun id => reference_graph.get_point_level id)
            ids groups_count) cpu_linked_points gpu_fails schedule
          ((List.range (BatchedPoints.new
            (fun id => reference_graph.get_point_level id) ids
            groups_count).levels_count).reverse) (fill_ready_list g')
        constructor
        · rw [linked_points_append, linked_points_seed_trace]
          have hlvl := linked_points_of_level_ops _ hlvl0
          simp only [linked_points, List.filterMap_cons] at hlvl ⊢
          rw [hlvl]
          simp [seeding_order]
        · rw [List.count_append, count_pollStop_seed_trace]
          have hlvl := count_pollStop_of_level_ops _ hlvl0
          simp only [List.count_cons, List.count_nil]
          rw [hlvl]
          simp [seeding_order]
  · intro hk
    have hcpu := cpu_link_batches_interrupted cpu_linked_points k stopped
      scorer_builder hstop hsb
      (((BatchedPoints.new (fun id => reference_graph.get_point_level id) ids
          groups_count).iter_batches 0).map (fun b => b.points))
      (create_graph_layers_builder (fun id => reference_graph.get_point_level id)
        reference_graph.links_layers.length reference_graph.hnsw_m
        (max reference_graph.ef_construct reference_graph.hnsw_m.m0)
        entry_points_num) 0 0 (by omega) (by omega)
      (by
        simp only [Nat.sub_zero, Nat.zero_add]
        exact hk)
    simp only [build_hnsw_on_gpu, hcpu, Nat.sub_zero]
    refine ⟨?_, ?_, by simp⟩
    · rw [linked_points_append, linked_points_seed_trace]
      simp [linked_points, seeding_order]
    · rw [List.count_append, count_pollStop_seed_trace]
      simp [seeding_order] at hk ⊢
      omega

/-- Witness for `hnsw_cpu_seeding`: `cpu_linked_points = 2`, stop flag first
true at poll 10 (never observed), so the first `min(2, 3) = 2` points are
linked, with one poll before each. -/
theorem hnsw_cpu_seeding_witness :
    linked_points (build_hnsw_on_gpu exampleRef 2 1 2 [0, 1, 2]
        (fun _ => some (fun x => x)) (fun j => decide (10 ≤ j)) false
        (fun _ => false) (fun _ => [0])).1 = [0, 1] ∧
    (build_hnsw_on_gpu exampleRef 2 1 2 [0, 1, 2]
        (fun _ => some (fun x => x)) (fun j => decide (10 ≤ j)) false
        (fun _ => false) (fun _ => [0])).1.count .pollStop = 2 := by
  have h := (hnsw_cpu_seeding exampleRef 2 1 2 [0, 1, 2]
    (fun _ => some (fun x => x)) (fun j => decide (10 ≤ j)) false
    (fun _ => false) (fun _ => [0]) 10 (by decide) (fun p => rfl)
    (fun j => by simp)).1 (by decide)
  revert h
  decide

theorem ops_for_cons (l : Nat) (ls : List Nat) :
    ops_for (l :: ls) = .upload l :: .buildLevel l :: .download l :: ops_for ls := by
  simp [ops_for]

theorem gpu_build_levels_take (hm : HnswM) (ef : Nat) (bp : BatchedPoints)
    (skip : Nat) (gpu_fails : BuildEvent → Bool) (schedule : Nat → List Nat) :
    ∀ (ls : List Nat) (g : GraphLayersBuilder),
      (gpu_build_levels hm ef bp skip gpu_fails schedule ls g).1
        = (ops_for ls).take
            (gpu_build_levels hm ef bp skip gpu_fails schedule ls g).1.length := by
  intro ls
  induction ls with
  | nil =>
    intro g
    simp [gpu_build_levels, ops_for]
  | cons l rest ih =>
    intro g
    rw [ops_for_cons]
    simp only [gpu_build_levels]
    split
    · simp
    · split
      · simp
      · split
        · simp
        · simp only [List.length_cons, List.take_succ_cons]
          rw [← ih]

theorem gpu_build_levels_all_ok (hm : HnswM) (ef : Nat) (bp : BatchedPoints)
    (skip : Nat) (gpu_fails : BuildEvent → Bool) (schedule : Nat → List Nat) :
    ∀ (ls : List Nat) (g : GraphLayersBuilder),
      (∀ e ∈ ops_for ls, gpu_fails e = false) →
      ∃ g', gpu_build_levels hm ef bp skip gpu_fails schedule ls g
        = (ops_for ls, .ok g') := by
  intro ls
  induction ls with
  | nil =>
    intro g _
    exact ⟨g, by simp [gpu_build_levels, ops_for]⟩
  | cons l rest ih =>
    intro g hok
    rw [ops_for_cons] at hok ⊢
    have h1 : gpu_fails (.upload l) = false := hok _ (by simp)
    have h2 : gpu_fails (.buildLevel l) = false := hok _ (by simp)
    have h3 : gpu_fails (.download l) = false := hok _ (by simp)
    obtain ⟨g', hg'⟩ := ih (build_level_on_gpu hm ef bp skip l (schedule l) g)
      (fun e he => hok e (by simp [he]))
    refine ⟨g', ?_⟩
    simp [gpu_build_levels, h1, h2, h3, hg']

theorem gpu_build_levels_ok_trace (hm : HnswM) (ef : Nat) (bp : BatchedPoints)
    (skip : Nat) (gpu_fails : BuildEvent → Bool) (schedule : Nat → List Nat) :
    ∀ (ls : List Nat) (g : GraphLayersBuilder) (evs : List BuildEvent)
      (g' : GraphLayersBuilder),
      gpu_build_levels hm ef bp skip gpu_fails schedule ls g = (evs, .ok g') →
      evs = ops_for ls := by
  intro ls
  induction ls with
  | nil =>
    intro g evs g' h
    simp only [gpu_build_levels, Prod.mk.injEq] at h
    simp [ops_for, ← h.1]
  | cons l rest ih =>
    intro g evs g' h
    simp only [gpu_build_levels] at h
    split at h
    · simp only [Prod.mk.injEq] at h
      exact absurd h.2 (by simp)
    · split at h
      · simp only [Prod.mk.injEq] at h
        exact absurd h.2 (by simp)
      · split at h
        · simp only [Prod.mk.injEq] at h
          exact absurd h.2 (by simp)
        · simp only [Prod.mk.injEq] at h
          obtain ⟨h1, h2⟩ := h
          have heq2 : gpu_build_levels hm ef bp skip gpu_fails schedule rest
              (build_level_on_gpu hm ef bp skip l (schedule l) g) =
              ((gpu_build_levels hm ef bp skip gpu_fails schedule rest
                (build_level_on_gpu hm ef bp skip l (schedule l) g)).1, .ok g') := by
            rw [← h2]
          have h3 := ih _ _ _ heq2
          rw [ops_for_cons, ← h1, h3]

theorem gpu_build_levels_error (hm : HnswM) (ef : Nat) (bp : BatchedPoints)
    (skip : Nat) (gpu_fails : BuildEvent → Bool) (schedule : Nat → List Nat) :
    ∀ (ls : List Nat) (g : GraphLayersBuilder) (evs : List BuildEvent)
      (e : BuildError),
      gpu_build_levels hm ef bp skip gpu_fails schedule ls g = (evs, .error e) →
      ∃ op, e = .gpuError op ∧ gpu_fails op = true ∧
        (∀ x ∈ evs, gpu_fails x = false) ∧
        (ops_for ls)[evs.length]? = some op := by
  intro ls
  induction ls with
  | nil =>
    intro g evs e h
    simp only [gpu_build_levels, Prod.mk.injEq] at h
    exact absurd h.2 (by simp)
  | cons l rest ih =>
    intro g evs e h
    simp only [gpu_build_levels] at h
    split at h
    · next hf =>
      simp only [Prod.mk.injEq, Except.error.injEq] at h
      refine ⟨.upload l, h.2.symm, hf, ?_, ?_⟩
      · rw [← h.1]
        simp
      · rw [← h.1, ops_for_cons]
        simp
    · next hf1 =>
      split at h
      · next hf =>
        simp only [Prod.mk.injEq, Except.error.injEq] at h
        refine ⟨.buildLevel l, h.2.symm, hf, ?_, ?_⟩
        · rw [← h.1]
          intro x hx
          simp at hx
          rw [hx]
          simpa using hf1
        · rw [← h.1, ops_for_cons]
          simp
      · next hf2 =>
        split at h
        · next hf =>
          simp only [Prod.mk.injEq, Except.error.injEq] at h
          refine ⟨.download l, h.2.symm, hf, ?_, ?_⟩
          · rw [← h.1]
            intro x hx
            simp at hx
            rcases hx with hx | hx
            · rw [hx]
              simpa using hf1
            · rw [hx]
              simpa using hf2
          · rw [← h.1, ops_for_cons]
            simp
        · next hf3 =>
          simp only [Prod.mk.injEq] at h
          obtain ⟨h1, h2⟩ := h
          have heq2 : gpu_build_levels hm ef bp skip gpu_fails schedule rest
              (build_level_on_gpu hm ef bp skip l (schedule l) g) =
              ((gpu_build_levels hm ef bp skip gpu_fails schedule rest
                (build_level_on_gpu hm ef bp skip l (schedule l) g)).1, .error e) := by
            rw [← h2]
          obtain ⟨op, hop1, hop2, hop3, hop4⟩ := ih _ _ _ heq2
          refine ⟨op, hop1, hop2, ?_, ?_⟩
          · rw [← h1]
            intro x hx
            simp only [List.mem_cons] at hx
            rcases hx with hx | hx | hx | hx
            · rw [hx]
              simpa using hf1
            · rw [hx]
              simpa using hf2
            · rw [hx]
              simpa using hf3
            · exact hop3 x hx
          · rw [← h1, ops_for_cons]
            simpa using hop4

theorem gpu_build_levels_ordering (hm : HnswM) (ef : Nat) (bp : BatchedPoints)
    (skip : Nat) (gpu_fails : BuildEvent → Bool) (schedule : Nat → List Nat) :
    ∀ (ls : List Nat), ls.Pairwise (fun a b => b < a) →
      ∀ (g : GraphLayersBuilder) (tr1 : List BuildEvent) (L : Nat)
        (tr2 : List BuildEvent),
      (gpu_build_levels hm ef bp skip gpu_fails schedule ls g).1
        = tr1 ++ .buildLevel L :: tr2 →
      ∀ L', L < L' → L' ∈ ls →
        .upload L' ∈ tr1 ∧ .buildLevel L' ∈ tr1 ∧ .download L' ∈ tr1 := by
  intro ls
  induction ls with
  | nil =>
    intro _ g tr1 L tr2 h L' hLL' hmem
    simp at hmem
  | cons l rest ih =>
    intro hsort g tr1 L tr2 h L' hLL' hmem
    obtain ⟨hl, hrest⟩ := List.pairwise_cons.mp hsort
    simp only [gpu_build_levels] at h
    split at h
    · simp at h
    · split at h
      · rcases tr1 with _ | ⟨a, tr1'⟩ <;> simp at h
      · split at h
        · rcases tr1 with _ | ⟨a, _ | ⟨b, tr1'⟩⟩
          · simp at h
          · simp at h
            exfalso
            rcases List.mem_cons.mp hmem with rfl | hmem2
            · omega
            · have := hl L' hmem2
              omega
          · simp at h
        · rcases tr1 with _ | ⟨a, _ | ⟨b, _ | ⟨c, tr1'⟩⟩⟩
          · simp at h
          · simp at h
            exfalso
            rcases List.mem_cons.mp hmem with rfl | hmem2
            · omega
            · have := hl L' hmem2
              omega
          · simp at h
          · simp only [List.cons_append, List.cons.injEq] at h
            obtain ⟨ha, hb, hc, htr⟩ := h
            subst ha
            subst hb
            subst hc
            rcases List.mem_cons.mp hmem with rfl | hmem2
            · refine ⟨by simp, by simp, by simp⟩
            · obtain ⟨m1, m2, m3⟩ := ih hrest _ tr1' L tr2 htr L' hLL' hmem2
              refine ⟨?_, ?_, ?_⟩ <;> simp [m1, m2, m3]

theorem cpu_link_batch_error_shape (cpu : Nat) (stopped : Nat → Bool)
    (sb : Nat → Option (Nat → Nat)) :
    ∀ (ps : List Nat) (g : GraphLayersBuilder) (count polls : Nat)
      (evs : List BuildEvent) (e : BuildError),
      cpu_link_batch cpu stopped sb ps g count polls = (evs, .error e) →
      e = .interrupted ∨ ∃ p, e = .scorerFailed p := by
  intro ps
  induction ps with
  | nil =>
    intro g count polls evs e h
    simp only [cpu_link_batch, Prod.mk.injEq] at h
    exact absurd h.2 (by simp)
  | cons p ps ih =>
    intro g count polls evs e h
    simp only [cpu_link_batch] at h
    split at h
    · simp only [Prod.mk.injEq, Except.error.injEq] at h
      exact Or.inl h.2.symm
    · split at h
      · simp only [Prod.mk.injEq, Except.error.injEq] at h
        exact Or.inr ⟨p, h.2.symm⟩
      · split at h
        · simp only [Prod.mk.injEq] at h
          exact absurd h.2 (by simp)
        · simp only [Prod.mk.injEq] at h
          obtain ⟨-, h2⟩ := h
          exact ih _ _ _ _ e (by rw [← h2])

theorem cpu_link_batches_error_shape (cpu : Nat) (stopped : Nat → Bool)
    (sb : Nat → Option (Nat → Nat)) :
    ∀ (bs : List (List Nat)) (g : GraphLayersBuilder) (count polls : Nat)
      (evs : List BuildEvent) (e : BuildError),
      cpu_link_batches cpu stopped sb bs g count polls = (evs, .error e) →
      e = .interrupted ∨ ∃ p, e = .scorerFailed p := by
  intro bs
  induction bs with
  | nil =>
    intro g count polls evs e h
    simp only [cpu_link_batches, Prod.mk.injEq] at h
    exact absurd h.2 (by simp)
  | cons b bs ih =>
    intro g count polls evs e h
    simp only [cpu_link_batches] at h
    split at h
    · next evs' e' heq =>
      simp only [Prod.mk.injEq, Except.error.injEq] at h
      rw [h.2] at heq
      exact cpu_link_batch_error_shape cpu stopped sb b g count polls evs' e heq
    · next evs' gm cm pm heq =>
      split at h
      · simp only [Prod.mk.injEq] at h
        exact absurd h.2 (by simp)
      · simp only [Prod.mk.injEq] at h
        obtain ⟨-, h2⟩ := h
        exact ih _ _ _ _ e (by rw [← h2])

theorem append_split_of_not_mem {α : Type} {pre ys tr1 tr2 : List α} {e : α}
    (h : pre ++ ys = tr1 ++ e :: tr2) (hne : e ∉ pre) :
    ∃ tr1', tr1 = pre ++ tr1' ∧ ys = tr1' ++ e :: tr2 := by
  rcases List.append_eq_append_iff.mp h with ⟨a, ha1, ha2⟩ | ⟨c, hc1, hc2⟩
  · exact ⟨a, ha1, ha2⟩
  · cases c with
    | nil =>
      refine ⟨[], by simp [hc1], ?_⟩
      simpa using hc2.symm
    | cons x c' =>
      exfalso
      simp only [List.cons_append, List.cons.injEq] at hc2
      apply hne
      rw [hc1, hc2.1]
      simp

/-- C4: in `build_hnsw_on_gpu` the accelerated phase processes levels
strictly from `levels_count − 1` down to 0, performing `upload_links`, the
level build, then `download_links` for each level in that order (the
per-level GPU calls of the trace are always a prefix of that descending
sequence, and the whole sequence when the build completes after entering
the accelerated phase); any error or observed cancellation of these calls
is propagated immediately as the function's result
(`first_gpu_failure_reported`), so a level's build never appears before the
full cycle of every higher level (`level_build_after_higher`). -/
theorem hnsw_gpu_phase_top_down (reference_graph : GraphLayersBuilder)
    (groups_count entry_points_num cpu_linked_points : Nat) (ids : List Nat)
    (scorer_builder : Nat → Option (Nat → Nat)) (stopped : Nat → Bool)
    (gpu_init_fails : Bool) (gpu_fails : BuildEvent → Bool)
    (schedule : Nat → List Nat) (tr : List BuildEvent)
    (res : Except BuildError GraphLayersBuilder)
    (h : build_hnsw_on_gpu reference_graph groups_count entry_points_num
      cpu_linked_points ids scorer_builder stopped gpu_init_fails gpu_fails schedule
      = (tr, res)) :
    gpu_level_ops tr
      = (ops_for ((List.range (BatchedPoints.new
          (fun id => reference_graph.get_point_level id) ids
          groups_count).levels_count).reverse)).take (gpu_level_ops tr).length ∧
    (res.isOk = true → .gpuInit ∈ tr →
      gpu_level_ops tr = ops_for ((List.range (BatchedPoints.new
        (fun id => reference_graph.get_point_level id) ids
        groups_count).levels_count).reverse)) ∧
    first_gpu_failure_reported gpu_fails (BatchedPoints.new
      (fun id => reference_graph.get_point_level id) ids
      groups_count).levels_count tr res ∧
    level_build_after_higher (BatchedPoints.new
      (fun id => reference_graph.get_point_level id) ids
      groups_count).levels_count tr := by
  simp only [build_hnsw_on_gpu] at h
  split at h
  · next evs e heq =>
    simp only [Prod.mk.injEq] at h
    obtain ⟨htr, hres⟩ := h
    subst htr
    subst hres
    have hevs : ∀ x ∈ evs, x = .pollStop ∨ ∃ p, x = .linkPoint p := by
      have h0 := cpu_link_batches_events cpu_linked_points stopped scorer_builder
        (List.map (fun b => b.points) ((BatchedPoints.new
          (fun id => reference_graph.get_point_level id) ids
          groups_count).iter_batches 0))
        (create_graph_layers_builder (fun id => reference_graph.get_point_level id)
          reference_graph.links_layers.length reference_graph.hnsw_m
          (max reference_graph.ef_construct reference_graph.hnsw_m.m0)
          entry_points_num) 0 0
      rw [heq] at h0
      exact h0
    have hfil : gpu_level_ops evs = [] := by
      rw [gpu_level_ops, List.filter_eq_nil_iff]
      intro x hx
      rcases hevs x hx with h1 | ⟨p, h1⟩ <;> simp [h1, isLevelOp]
    refine ⟨?_, ?_, ?_, ?_⟩
    · rw [hfil]
      simp
    · intro hok
      simp [Except.isOk, Except.toBool] at hok
    · intro op hop hlev
      exfalso
      simp only [Except.error.injEq] at hop
      rcases cpu_link_batches_error_shape _ _ _ _ _ _ _ _ _ heq with h1 | ⟨p, h1⟩ <;>
        simp [h1] at hop
    · intro tr1 L tr2 hsplit L' h1 h2
      exfalso
      have : BuildEvent.buildLevel L ∈ evs := by
        rw [hsplit]
        simp
      rcases hevs _ this with h3 | ⟨p, h3⟩ <;> simp at h3
  · next evs g1 count polls heq =>
    have hevs : ∀ x ∈ evs, x = .pollStop ∨ ∃ p, x = .linkPoint p := by
      have h0 := cpu_link_batches_events cpu_linked_points stopped scorer_builder
        (List.map (fun b => b.points) ((BatchedPoints.new
          (fun id => reference_graph.get_point_level id) ids
          groups_count).iter_batches 0))
        (create_graph_layers_builder (fun id => reference_graph.get_point_level id)
          reference_graph.links_layers.length reference_graph.hnsw_m
          (max reference_graph.ef_construct reference_graph.hnsw_m.m0)
          entry_points_num) 0 0
      rw [heq] at h0
      exact h0
    have hfil : gpu_level_ops evs = [] := by
      rw [gpu_level_ops, List.filter_eq_nil_iff]
      intro x hx
      rcases hevs x hx with h1 | ⟨p, h1⟩ <;> simp [h1, isLevelOp]
    split at h
    · simp only [Prod.mk.injEq] at h
      obtain ⟨htr, hres⟩ := h
      subst htr
      subst hres
      have hfil2 : gpu_level_ops (evs ++ [.fillReady]) = [] := by
        rw [gpu_level_ops, List.filter_append]
        rw [gpu_level_ops] at hfil
        rw [hfil]
        simp [isLevelOp]
      refine ⟨?_, ?_, ?_, ?_⟩
      · rw [hfil2]
        simp
      · intro hok hinit
        exfalso
        simp only [List.mem_append, List.mem_singleton] at hinit
        rcases hinit with h1 | h1
        · rcases hevs _ h1 with h2 | ⟨p, h2⟩ <;> simp at h2
        · simp at h1
      · intro op hop hlev
        exact absurd hop (by simp)
      · intro tr1 L tr2 hsplit L' h1 h2
        exfalso
        have hmem : BuildEvent.buildLevel L ∈ evs ++ [BuildEvent.fillReady] := by
          rw [hsplit]
          simp
        simp only [List.mem_append, List.mem_singleton] at hmem
        rcases hmem with h3 | h3
        · rcases hevs _ h3 with h4 | ⟨p, h4⟩ <;> simp at h4
        · simp at h3
    · split at h
      · simp only [Prod.mk.injEq] at h
        obtain ⟨htr, hres⟩ := h
        subst htr
        subst hres
        have hfil2 : gpu_level_ops (evs ++ [.fillReady]) = [] := by
          rw [gpu_level_ops, List.filter_append]
          rw [gpu_level_ops] at hfil
          rw [hfil]
          simp [isLevelOp]
        refine ⟨?_, ?_, ?_, ?_⟩
        · rw [hfil2]
          simp
        · intro hok
          simp [Except.isOk, Except.toBool] at hok
        · intro op hop hlev
          simp only [Except.error.injEq, BuildError.gpuError.injEq] at hop
          rw [← hop] at hlev
          simp [isLevelOp] at hlev
        · intro tr1 L tr2 hsplit L' h1 h2
          exfalso
          have hmem : BuildEvent.buildLevel L ∈ evs ++ [BuildEvent.fillReady] := by
            rw [hsplit]
            simp
          simp only [List.mem_append, List.mem_singleton] at hmem
          rcases hmem with h3 | h3
          · rcases hevs _ h3 with h4 | ⟨p, h4⟩ <;> simp at h4
          · simp at h3
      · simp only [Prod.mk.injEq] at h
        obtain ⟨htr, hres⟩ := h
        subst htr
        subst hres
        have hgev := gpu_build_levels_events reference_graph.hnsw_m
          (max reference_graph.ef_construct reference_graph.hnsw_m.m0)
          (BatchedPoints.new (fun id => reference_graph.get_point_level id) ids
            groups_count) cpu_linked_points gpu_fails schedule
          ((List.range (BatchedPoints.new
            (fun id => reference_graph.get_point_level id) ids
            groups_count).levels_count).reverse) (fill_ready_list g1)
        have hfil2 : gpu_level_ops (evs ++ .fillReady :: .gpuInit ::
            (gpu_build_levels reference_graph.hnsw_m
              (max reference_graph.ef_construct reference_graph.hnsw_m.m0)
              (BatchedPoints.new (fun id => reference_graph.get_point_level id)
                ids groups_count) cpu_linked_points gpu_fails schedule
              ((List.range (BatchedPoints.new
                (fun id => reference_graph.get_point_level id) ids
                groups_count).levels_count).reverse) (fill_ready_list g1)).1)
            = (gpu_build_levels reference_graph.hnsw_m
              (max reference_graph.ef_construct reference_graph.hnsw_m.m0)
              (BatchedPoints.new (fun id => reference_graph.get_point_level id)
                ids groups_count) cpu_linked_points gpu_fails schedule
              ((List.range (BatchedPoints.new
                (fun id => reference_graph.get_point_level id) ids
                groups_count).levels_count).reverse) (fill_ready_list g1)).1 := by
          rw [gpu_level_ops, List.filter_append]
          rw [gpu_level_ops] at hfil
          rw [hfil]
          simp only [List.filter_cons]
          rw [List.filter_eq_self.mpr hgev]
          simp [isLevelOp]
        refine ⟨?_, ?_, ?_, ?_⟩
        · rw [hfil2]
          exact gpu_build_levels_take _ _ _ _ _ _ _ _
        · intro hok hinit
          rw [hfil2]
          rcases hres2 : (gpu_build_levels reference_graph.hnsw_m
              (max reference_graph.ef_construct reference_graph.hnsw_m.m0)
              (BatchedPoints.new (fun id => reference_graph.get_point_level id)
                ids groups_count) cpu_linked_points gpu_fails schedule
              ((List.range (BatchedPoints.new
                (fun id => reference_graph.get_point_level id) ids
                groups_count).levels_count).reverse) (fill_ready_list g1)).2 with
            e | g'
          · rw [hres2] at hok
            simp [Except.isOk, Except.toBool] at hok
          · have heq3 : gpu_build_levels reference_graph.hnsw_m
                (max reference_graph.ef_construct reference_graph.hnsw_m.m0)
                (BatchedPoints.new (fun id => reference_graph.get_point_level id)
                  ids groups_count) cpu_linked_points gpu_fails schedule
                ((List.range (BatchedPoints.new
                  (fun id => reference_graph.get_point_level id) ids
                  groups_count).levels_count).reverse) (fill_ready_list g1)
                = ((gpu_build_levels reference_graph.hnsw_m
                  (max reference_graph.ef_construct reference_graph.hnsw_m.m0)
                  (BatchedPoints.new (fun id => reference_graph.get_point_level id)
                    ids groups_count) cpu_linked_points gpu_fails schedule
                  ((List.range (BatchedPoints.new
                    (fun id => reference_graph.get_point_level id) ids
                    groups_count).levels_count).reverse) (fill_ready_list g1)).1,
                  .ok g') := by
              rw [← hres2]
            exact gpu_build_levels_ok_trace _ _ _ _ _ _ _ _ _ _ heq3
        · intro op hop hlev
          have heq2 : gpu_build_levels reference_graph.hnsw_m
              (max reference_graph.ef_construct reference_graph.hnsw_m.m0)
              (BatchedPoints.new (fun id => reference_graph.get_point_level id)
                ids groups_count) cpu_linked_points gpu_fails schedule
              ((List.range (BatchedPoints.new
                (fun id => reference_graph.get_point_level id) ids
                groups_count).levels_count).reverse) (fill_ready_list g1)
              = ((gpu_build_levels reference_graph.hnsw_m
                (max reference_graph.ef_construct reference_graph.hnsw_m.m0)
                (BatchedPoints.new (fun id => reference_graph.get_point_level id)
                  ids groups_count) cpu_linked_points gpu_fails schedule
                ((List.range (BatchedPoints.new
                  (fun id => reference_graph.get_point_level id) ids
                  groups_count).levels_count).reverse) (fill_ready_list g1)).1,
                .error (.gpuError op)) := by
            rw [← hop]
          obtain ⟨op', hop1, hop2, hop3, hop4⟩ :=
            gpu_build_levels_error _ _ _ _ _ _ _ _ _ _ heq2
          have hopeq : op' = op := by
            simpa using hop1.symm
          subst hopeq
          refine ⟨hop2, ?_, ?_⟩
          · rw [hfil2]
            exact hop3
          · rw [hfil2]
            exact hop4
        · intro tr1 L tr2 hsplit L' h1 h2
          have hpre : (evs ++ .fillReady :: .gpuInit ::
              (gpu_build_levels reference_graph.hnsw_m
                (max reference_graph.ef_construct reference_graph.hnsw_m.m0)
                (BatchedPoints.new (fun id => reference_graph.get_point_level id)
                  ids groups_count) cpu_linked_points gpu_fails schedule
                ((List.range (BatchedPoints.new
                  (fun id => reference_graph.get_point_level id) ids
                  groups_count).levels_count).reverse) (fill_ready_list g1)).1)
              = (evs ++ [.fillReady, .gpuInit]) ++
              (gpu_build_levels reference_graph.hnsw_m
                (max reference_graph.ef_construct reference_graph.hnsw_m.m0)
                (BatchedPoints.new (fun id => reference_graph.get_point_level id)
                  ids groups_count) cpu_linked_points gpu_fails schedule
                ((List.range (BatchedPoints.new
                  (fun id => reference_graph.get_point_level id) ids
                  groups_count).levels_count).reverse) (fill_ready_list g1)).1 := by
            simp
          rw [hpre] at hsplit
          have hnotmem : BuildEvent.buildLevel L ∉ evs ++ [BuildEvent.fillReady,
              BuildEvent.gpuInit] := by
            intro hmem
            simp only [List.mem_append] at hmem
            rcases hmem with h3 | h3
            · rcases hevs _ h3 with h4 | ⟨p, h4⟩ <;> simp at h4
            · simp at h3
          obtain ⟨tr1', htr1, hgevs⟩ := append_split_of_not_mem hsplit hnotmem
          have hsorted : ((List.range (BatchedPoints.new
              (fun id => reference_graph.get_point_level id) ids
              groups_count).levels_count).reverse).Pairwise (fun a b => b < a) := by
            rw [List.pairwise_reverse]
            exact List.pairwise_lt_range _
          have hmemls : L' ∈ (List.range (BatchedPoints.new
              (fun id => reference_graph.get_point_level id) ids
              groups_count).levels_count).reverse := by
            rw [List.mem_reverse, List.mem_range]
            exact h2
          obtain ⟨m1, m2, m3⟩ := gpu_build_levels_ordering _ _ _ _ _ _ _ hsorted
            (fill_ready_list g1) tr1' L tr2 hgevs L' h1 hmemls
          rw [htr1]
          refine ⟨?_, ?_, ?_⟩ <;> simp [m1, m2, m3]

/-- Witness for `hnsw_gpu_phase_top_down` on the `exampleRef` build, whose
trace runs levels 1 then 0, each as `upload`, `buildLevel`, `download`. -/
theorem hnsw_gpu_phase_top_down_witness :
    gpu_level_ops exampleBuildTrace
      = (ops_for ((List.range (BatchedPoints.new
          (fun id => exampleRef.get_point_level id) [0, 1, 2]
          2).levels_count).reverse)).take (gpu_level_ops exampleBuildTrace).length ∧
    ((Except.ok exampleBuildResult : Except BuildError GraphLayersBuilder).isOk
        = true → .gpuInit ∈ exampleBuildTrace →
      gpu_level_ops exampleBuildTrace = ops_for ((List.range (BatchedPoints.new
        (fun id => exampleRef.get_point_level id) [0, 1, 2]
        2).levels_count).reverse)) ∧
    first_gpu_failure_reported (fun _ => false) (BatchedPoints.new
      (fun id => exampleRef.get_point_level id) [0, 1, 2] 2).levels_count
      exampleBuildTrace (.ok exampleBuildResult) ∧
    level_build_after_higher (BatchedPoints.new
      (fun id => exampleRef.get_point_level id) [0, 1, 2] 2).levels_count
      exampleBuildTrace :=
  hnsw_gpu_phase_top_down exampleRef 2 1 1 [0, 1, 2] (fun _ => some (fun x => x))
    (fun _ => false) false (fun _ => false) (fun _ => [0]) exampleBuildTrace
    (.ok exampleBuildResult) (by decide)

theorem setLinks_comm {p q : Nat} (h : p ≠ q) (level : Nat) (v w : List Nat)
    (ll : List (List (List Nat))) :
    setLinks (setLinks ll p level v) q level w
      = setLinks (setLinks ll q level w) p level v := by
  unfold setLinks
  have hgq : (ll.set p ((ll.getD p []).set level v)).getD q [] = ll.getD q [] := by
    rw [getD_set_eq_ite, if_neg (by tauto)]
  have hgp : (ll.set q ((ll.getD q []).set level w)).getD p [] = ll.getD p [] := by
    rw [getD_set_eq_ite, if_neg (by tauto)]
  rw [hgq, hgp, List.set_comm _ _ _ h]

theorem points_fold_setLinks_comm (hm : HnswM) (ef level : Nat)
    (snapshot : List (List (List Nat))) (entry : List Nat) :
    ∀ (ps : List Nat) (q : Nat) (w : List Nat) (ll : List (List (List Nat))),
      q ∉ ps →
      ps.foldl (fun acc p => setLinks acc p level
          (gpu_compute_links hm ef level snapshot entry p)) (setLinks ll q level w)
        = setLinks (ps.foldl (fun acc p => setLinks acc p level
            (gpu_compute_links hm ef level snapshot entry p)) ll) q level w := by
  intro ps
  induction ps with
  | nil =>
    intro q w ll _
    rfl
  | cons p ps ih =>
    intro q w ll hq
    simp only [List.foldl_cons]
    have hpq : p ≠ q := by
      intro hc
      exact hq (by simp [hc])
    rw [setLinks_comm hpq.symm]
    exact ih q w _ (fun hc => hq (by simp [hc]))

theorem gpu_apply_batch_setLinks_comm (hm : HnswM) (ef level : Nat)
    (snapshot : List (List (List Nat))) (entry : List Nat) (b : Batch)
    (q : Nat) (w : List Nat) (ll : List (List (List Nat))) (hq : q ∉ b.points) :
    gpu_apply_batch hm ef level snapshot entry b (setLinks ll q level w)
      = setLinks (gpu_apply_batch hm ef level snapshot entry b ll) q level w := by
  unfold gpu_apply_batch
  exact points_fold_setLinks_comm hm ef level snapshot entry b.points q w ll hq

theorem gpu_apply_batch_comm (hm : HnswM) (ef level : Nat)
    (snapshot : List (List (List Nat))) (entry : List Nat) (b1 b2 : Batch)
    (hdisj : b1.points.Disjoint b2.points) :
    ∀ ll, gpu_apply_batch hm ef level snapshot entry b1
        (gpu_apply_batch hm ef level snapshot entry b2 ll)
      = gpu_apply_batch hm ef level snapshot entry b2
        (gpu_apply_batch hm ef level snapshot entry b1 ll) := by
  have hmain : ∀ (ps : List Nat), (∀ x ∈ ps, x ∉ b2.points) →
      ∀ ll, ps.foldl (fun acc p => setLinks acc p level
          (gpu_compute_links hm ef level snapshot entry p))
          (gpu_apply_batch hm ef level snapshot entry b2 ll)
        = gpu_apply_batch hm ef level snapshot entry b2
          (ps.foldl (fun acc p => setLinks acc p level
            (gpu_compute_links hm ef level snapshot entry p)) ll) := by
    intro ps
    induction ps with
    | nil =>
      intro _ ll
      rfl
    | cons p ps ih =>
      intro hps ll
      simp only [List.foldl_cons]
      rw [← gpu_apply_batch_setLinks_comm hm ef level snapshot entry b2 p _ ll
        (hps p (by simp))]
      exact ih (fun x hx => hps x (by simp [hx])) _
  intro ll
  exact hmain b1.points hdisj ll

theorem build_level_on_gpu_perm (hm : HnswM) (ef : Nat) (bp : BatchedPoints)
    (skip level : Nat) {s1 s2 : List Nat} (hperm : s1.Perm s2)
    (g : GraphLayersBuilder)
    (hdisj : ∀ i j, i ≠ j →
      (((bp.iter_batches skip).filter (fun b => level ≤ b.level)).getD i
        { level := level, points := [] }).points.Disjoint
      (((bp.iter_batches skip).filter (fun b => level ≤ b.level)).getD j
        { level := level, points := [] }).points) :
    build_level_on_gpu hm ef bp skip level s1 g
      = build_level_on_gpu hm ef bp skip level s2 g := by
  have hcomm : RightCommutative (fun acc bi =>
      gpu_apply_batch hm ef level g.links_layers g.entry_points
        (((bp.iter_batches skip).filter (fun b => level ≤ b.level)).getD bi
          { level := level, points := [] }) acc) := by
    constructor
    intro acc b1 b2
    by_cases hbb : b1 = b2
    · rw [hbb]
    · exact gpu_apply_batch_comm hm ef level g.links_layers g.entry_points _ _
        (hdisj b2 b1 (fun hc => hbb hc.symm)) _
  unfold build_level_on_gpu
  simp only []
  have hfold := @List.Perm.foldl_eq _ _ (fun acc bi =>
      gpu_apply_batch hm ef level g.links_layers g.entry_points
        (((bp.iter_batches skip).filter (fun b => level ≤ b.level)).getD bi
          { level := level, points := [] }) acc) s1 s2 hcomm hperm g.links_layers
  rw [hfold]

theorem chunk_points_go_flatten (n : Nat) :
    ∀ (l acc : List Nat), (chunk_points_go n l acc).flatten = acc ++ l := by
  intro l
  induction l with
  | nil =>
    intro acc
    unfold chunk_points_go
    split
    · next h =>
      simp [List.isEmpty_iff.mp h]
    · simp
  | cons x xs ih =>
    intro acc
    unfold chunk_points_go
    split
    · simp only [List.flatten_cons, ih []]
      simp
    · rw [ih (acc ++ [x])]
      simp

theorem chunk_points_flatten (n : Nat) (l : List Nat) :
    (chunk_points n l).flatten = l := by
  unfold chunk_points
  rw [chunk_points_go_flatten]
  simp

theorem sublist_flatten {α : Type} {l1 l2 : List (List α)} (h : l1.Sublist l2) :
    l1.flatten.Sublist l2.flatten := by
  induction h with
  | slnil => simp
  | cons a h ih =>
    simp only [List.flatten_cons]
    exact ih.trans (List.sublist_append_right _ _)
  | cons₂ a h ih =>
    simp only [List.flatten_cons]
    exact ih.append_left a

theorem iter_batches_from_flatten_sublist :
    ∀ (bs : List Batch) (k : Nat),
      ((iter_batches_from bs k).map (fun b => b.points)).flatten.Sublist
        ((bs.map (fun b => b.points)).flatten) := by
  intro bs
  induction bs with
  | nil =>
    intro k
    simp [iter_batches_from]
  | cons b bs ih =>
    intro k
    unfold iter_batches_from
    split
    · refine (ih _).trans ?_
      simp only [List.map_cons, List.flatten_cons]
      exact List.sublist_append_right _ _
    · simp only [List.map_cons, List.flatten_cons]
      exact List.Sublist.append (List.drop_sublist _ _) (List.Sublist.refl _)

theorem flatten_flatMap {α β : Type} (ls : List α) (f : α → List (List β)) :
    (ls.flatMap f).flatten = ls.flatMap (fun x => (f x).flatten) := by
  induction ls with
  | nil => simp
  | cons x xs ih => simp [ih]

theorem new_points_flatten (lf : Nat → Nat) (ids : List Nat) (gc : Nat) :
    ((BatchedPoints.new lf ids gc).batches.map (fun b => b.points)).flatten
      = ((List.range ((ids.map lf).foldr max 0 + 1)).reverse).flatMap
          (fun l => ids.filter (fun id => lf id = l)) := by
  unfold BatchedPoints.new
  simp only [List.map_flatMap, List.map_map]
  rw [flatten_flatMap]
  congr 1
  funext l
  have hcomp : ((fun b => Batch.points b) ∘ fun ps => Batch.mk l ps)
      = fun ps => ps := by
    funext ps
    rfl
  rw [hcomp]
  simp [chunk_points_flatten]

theorem new_points_flatten_nodup (lf : Nat → Nat) (ids : List Nat) (gc : Nat)
    (hids : ids.Nodup) :
    ((BatchedPoints.new lf ids gc).batches.map (fun b => b.points)).flatten.Nodup := by
  rw [new_points_flatten]
  rw [List.nodup_flatMap]
  constructor
  · intro l _
    exact hids.filter _
  · have hnd : ((List.range ((ids.map lf).foldr max 0 + 1)).reverse).Nodup := by
      rw [List.nodup_reverse]
      exact List.nodup_range _
    refine hnd.imp ?_
    intro a b hab
    intro x hx1 hx2
    simp only [List.mem_filter, decide_eq_true_eq] at hx1 hx2
    exact hab (hx1.2 ▸ hx2.2.symm ▸ rfl)

theorem flatten_nodup_pairwise {α : Type} :
    ∀ (ls : List (List α)), ls.flatten.Nodup →
      ls.Pairwise (fun x y => x.Disjoint y) := by
  intro ls
  induction ls with
  | nil =>
    intro _
    simp
  | cons x rest ih =>
    intro h
    simp only [List.flatten_cons, List.nodup_append] at h
    obtain ⟨h1, h2, h3⟩ := h
    refine List.pairwise_cons.mpr ⟨?_, ih h2⟩
    intro y hy a ha hay
    exact h3 ha (List.mem_flatten.mpr ⟨y, hy, hay⟩)

theorem pairwise_disjoint_getD (bs : List Batch) (d : Batch)
    (hd : d.points = [])
    (h : (bs.map (fun b => b.points)).flatten.Nodup) :
    ∀ i j, i ≠ j → (bs.getD i d).points.Disjoint (bs.getD j d).points := by
  have hpw := flatten_nodup_pairwise _ h
  rw [List.pairwise_iff_getElem] at hpw
  have hpos : ∀ i j, i < bs.length → j < bs.length → i < j →
      (bs.getD i d).points.Disjoint (bs.getD j d).points := by
    intro i j hi hj hij
    have := hpw i j (by simpa using hi) (by simpa using hj) hij
    simp only [List.getElem_map] at this
    rw [List.getD_eq_getElem?_getD, List.getD_eq_getElem?_getD,
      List.getElem?_eq_getElem hi, List.getElem?_eq_getElem hj]
    exact this
  intro i j hij
  by_cases hi : i < bs.length
  · by_cases hj : j < bs.length
    · rcases Nat.lt_or_ge i j with h1 | h1
      · exact hpos i j hi hj h1
      · have h2 : j < i := by omega
        exact (hpos j i hj hi h2).symm
    · intro a ha1 ha2
      rw [List.getD_eq_default _ _ (show bs.length ≤ j by omega), hd] at ha2
      simp at ha2
  · intro a ha1 ha2
    rw [List.getD_eq_default _ _ (show bs.length ≤ i by omega), hd] at ha1
    simp at ha1

theorem level_batches_disjoint (lf : Nat → Nat) (ids : List Nat) (gc : Nat)
    (hids : ids.Nodup) (skip level : Nat) :
    ∀ i j, i ≠ j →
      ((((BatchedPoints.new lf ids gc).iter_batches skip).filter
          (fun b => level ≤ b.level)).getD i
        { level := level, points := [] }).points.Disjoint
      ((((BatchedPoints.new lf ids gc).iter_batches skip).filter
          (fun b => level ≤ b.level)).getD j
        { level := level, points := [] }).points := by
  apply pairwise_disjoint_getD _ _ rfl
  have h1 := new_points_flatten_nodup lf ids gc hids
  have h2 := iter_batches_from_flatten_sublist (BatchedPoints.new lf ids gc).batches skip
  have h3 : (((((BatchedPoints.new lf ids gc).iter_batches skip).filter
      (fun b => level ≤ b.level)).map (fun b => b.points)).flatten).Sublist
      ((((BatchedPoints.new lf ids gc).iter_batches skip).map
        (fun b => b.points)).flatten) :=
    sublist_flatten ((List.filter_sublist _).map _)
  exact List.Nodup.sublist (h3.trans h2) h1

theorem gpu_build_levels_sched_perm (hm : HnswM) (ef : Nat) (bp : BatchedPoints)
    (skip : Nat) (gpu_fails : BuildEvent → Bool) (s1 s2 : Nat → List Nat)
    (hperm : ∀ l, (s1 l).Perm (s2 l))
    (hdisj : ∀ level i j, i ≠ j →
      (((bp.iter_batches skip).filter (fun b => level ≤ b.level)).getD i
        { level := level, points := [] }).points.Disjoint
      (((bp.iter_batches skip).filter (fun b => level ≤ b.level)).getD j
        { level := level, points := [] }).points) :
    ∀ (ls : List Nat) (g : GraphLayersBuilder),
      gpu_build_levels hm ef bp skip gpu_fails s1 ls g
        = gpu_build_levels hm ef bp skip gpu_fails s2 ls g := by
  intro ls
  induction ls with
  | nil =>
    intro g
    rfl
  | cons l rest ih =>
    intro g
    simp only [gpu_build_levels]
    rw [build_level_on_gpu_perm hm ef bp skip l (hperm l) g (hdisj l), ih]

/-- C7: with exact scoring (scoring is a pure function of the frozen
snapshot in the model) and a fixed parallelism degree, two executions of
`build_hnsw_on_gpu` over identical input data, identical construction
parameters and identical warm-start count produce identical results — in
particular identical edge sets at every level — even when the dispatch
order of each level's batches differs (any two permuted per-level
schedules), because every batch computes against the frozen snapshot and
distinct batches write disjoint point sets. -/
theorem hnsw_build_deterministic (reference_graph : GraphLayersBuilder)
    (groups_count entry_points_num cpu_linked_points : Nat) (ids : List Nat)
    (scorer_builder : Nat → Option (Nat → Nat)) (stopped : Nat → Bool)
    (gpu_init_fails : Bool) (gpu_fails : BuildEvent → Bool)
    (s1 s2 : Nat → List Nat) (hids : ids.Nodup)
    (hperm : ∀ l, (s1 l).Perm (s2 l)) :
    build_hnsw_on_gpu reference_graph groups_count entry_points_num
      cpu_linked_points ids scorer_builder stopped gpu_init_fails gpu_fails s1
    = build_hnsw_on_gpu reference_graph groups_count entry_points_num
      cpu_linked_points ids scorer_builder stopped gpu_init_fails gpu_fails s2 := by
  have hlevels := gpu_build_levels_sched_perm reference_graph.hnsw_m
    (max reference_graph.ef_construct reference_graph.hnsw_m.m0)
    (BatchedPoints.new (fun id => reference_graph.get_point_level id) ids
      groups_count) cpu_linked_points gpu_fails s1 s2 hperm
    (fun level => level_batches_disjoint
      (fun id => reference_graph.get_point_level id) ids groups_count hids
      cpu_linked_points level)
  unfold build_hnsw_on_gpu
  cases hcpu : cpu_link_batches cpu_linked_points stopped scorer_builder
      (((BatchedPoints.new (fun id => reference_graph.get_point_level id) ids
          groups_count).iter_batches 0).map (fun b => b.points))
      (create_graph_layers_builder (fun id => reference_graph.get_point_level id)
        reference_graph.links_layers.length reference_graph.hnsw_m
        (max reference_graph.ef_construct reference_graph.hnsw_m.m0)
        entry_points_num) 0 0 with
  | mk evs r =>
    cases r with
    | error e =>
      simp only [hcpu]
    | ok t =>
      obtain ⟨g1, count, polls⟩ := t
      simp only [hcpu]
      split
      · rfl
      · split
        · rfl
        · rw [hlevels]

/-- Witness for `hnsw_build_deterministic`: parallelism 1 gives two
one-point batches at level 0; dispatching them as `[0, 1]` or `[1, 0]`
yields the same build. -/
theorem hnsw_build_deterministic_witness :
    ([0, 1, 2] : List Nat).Nodup ∧
    build_hnsw_on_gpu exampleRef 1 1 1 [0, 1, 2] (fun _ => some (fun x => x))
        (fun _ => false) false (fun _ => false) (fun _ => [0, 1])
      = build_hnsw_on_gpu exampleRef 1 1 1 [0, 1, 2] (fun _ => some (fun x => x))
        (fun _ => false) false (fun _ => false) (fun _ => [1, 0]) :=
  ⟨by decide, by
    have hp : ([0, 1] : List Nat).Perm [1, 0] := by decide
    exact hnsw_build_deterministic exampleRef 1 1 1 [0, 1, 2]
      (fun _ => some (fun x => x)) (fun _ => false) false (fun _ => false)
      (fun _ => [0, 1]) (fun _ => [1, 0]) (by decide) (fun _ => hp)⟩
